import Mathlib

/-
Formal model of the episode identity and state-tracking subsystem of the
podcast-archiving repository (directory src/podcasts).

Modeling conventions:
- Python strings are modeled as lists of Unicode code points (List Nat).
  The helper `codes` turns a Lean string literal into such a list so that
  concrete inputs stay readable.
- Python dicts used as JSON documents are modeled by the inductive JsonVal;
  JSON object insertion follows Python dict semantics (last value wins,
  first insertion position kept).
- File contents are modeled as Option (List Nat): none is an absent file,
  some cs is a file holding code points cs.
- Wall-clock timestamps (datetime.utcnow().isoformat()) are passed in as an
  explicit parameter named now.
- Exceptions are modeled with Except; each raise site gets its own error
  constructor.
-/

set_option maxRecDepth 4096

namespace Podcasts

/-- Code points of a Lean string literal, used to write concrete inputs. -/
def codes (s : String) : List Nat := s.data.map Char.toNat

/-- ASCII lowercasing of one code point. Models Python str.lower; the
repository only feeds it podcast and interviewee names, and non-ASCII
case mapping is modeled as the identity. -/
def lowerCode (n : Nat) : Nat := if 65 ≤ n ∧ n ≤ 90 then n + 32 else n

/-- Python str.lower over a whole string. -/
def lowerStr (s : List Nat) : List Nat := s.map lowerCode

/-- Python regex class backslash-w at ASCII granularity: letters, digits and
the underscore (code 95). -/
def isWordCode (n : Nat) : Bool :=
  (48 ≤ n && n ≤ 57) || (97 ≤ n && n ≤ 122) || (65 ≤ n && n ≤ 90) || n == 95

/-- Python regex class backslash-s (ASCII): space, tab, newline, carriage
return, vertical tab, form feed. -/
def isSpaceCode (n : Nat) : Bool :=
  n == 32 || n == 9 || n == 10 || n == 13 || n == 11 || n == 12

/-- Characters kept by the first substitution in PodcastID._sanitize_name,
which deletes everything outside word characters, whitespace and hyphen
(code 45): re.sub(rage-class, removal) on the lowercased name. -/
def keepCode (n : Nat) : Bool := isWordCode n || isSpaceCode n || n == 45

/-- Models re.sub applied with pattern underscore-plus replaced by a single
underscore: every maximal run of code 95 collapses to one occurrence. -/
def collapseUnderscores : List Nat → List Nat
  | [] => []
  | a :: rest =>
    match rest with
    | [] => [a]
    | b :: r =>
      if a == 95 && b == 95 then collapseUnderscores (b :: r)
      else a :: collapseUnderscores (b :: r)

/-- Static method PodcastID._sanitize_name from src/podcasts/lib/generators/id.py
(the copy in src/podcasts/id_generator.py is identical): lowercase, drop
characters outside word/whitespace/hyphen, replace spaces (code 32) with
underscores, collapse repeated underscores. -/
def sanitize_name (s : List Nat) : List Nat :=
  collapseUnderscores
    (((s.map lowerCode).filter keepCode).map (fun c => if c == 32 then 95 else c))

/-- Absence of two adjacent underscores, the invariant established by
collapseUnderscores. -/
def noDoubleUnderscore : List Nat → Bool
  | [] => true
  | a :: rest =>
    match rest with
    | [] => true
    | b :: r => !(a == 95 && b == 95) && noDoubleUnderscore (b :: r)

/-- Minimal model of Python datetime values: year, month, day. Only the
date part of datetime objects is consumed by the modeled code. -/
structure PyDate where
  year : Nat
  month : Nat
  day : Nat
deriving DecidableEq

def isLeapYear (y : Nat) : Bool := (y % 4 == 0 && y % 100 != 0) || y % 400 == 0

def daysInMonth (y m : Nat) : Nat :=
  if m = 2 then (if isLeapYear y then 29 else 28)
  else if m = 4 ∨ m = 6 ∨ m = 9 ∨ m = 11 then 30
  else 31

/-- Valid datetime date triple (datetime.MINYEAR is 1, MAXYEAR is 9999). -/
def ValidDate (y m d : Nat) : Prop :=
  1 ≤ y ∧ y ≤ 9999 ∧ 1 ≤ m ∧ m ≤ 12 ∧ 1 ≤ d ∧ d ≤ daysInMonth y m

instance (y m d : Nat) : Decidable (ValidDate y m d) := by
  unfold ValidDate
  infer_instance

/-- Python format spec 02d: zero-pad to width two; wider numbers print in
full. -/
def fmt02 (n : Nat) : List Nat :=
  if n < 10 then [48, 48 + n]
  else if n < 100 then [48 + n / 10, 48 + n % 10]
  else (Nat.toDigits 10 n).map Char.toNat

/-- Class PodcastID of src/podcasts/lib/generators/id.py (the copy in
src/podcasts/id_generator.py is identical in every modeled member). The
stored fields hold what the constructor computed. -/
structure PodcastID where
  date : PyDate
  podcast_name : List Nat
  interviewee_name : List Nat
  platform : List Nat
  count : Nat
deriving DecidableEq

/-- PodcastID.__init__: stores the date and count, sanitizes both names and
lowercases the platform. -/
def PodcastID.make (date : PyDate) (podcast_name interviewee_name platform : List Nat)
    (count : Nat) : PodcastID :=
  ⟨date, sanitize_name podcast_name, sanitize_name interviewee_name, lowerStr platform, count⟩

/-- date.strftime with format y_m_d, each component two-digit zero-padded
(the year modulo 100). -/
def strftime_y_m_d (d : PyDate) : List Nat :=
  fmt02 (d.year % 100) ++ 95 :: fmt02 d.month ++ 95 :: fmt02 d.day

/-- Property PodcastID.base_id: date string, podcast name, interviewee name,
platform and two-digit count joined by underscores. -/
def PodcastID.base_id (p : PodcastID) : List Nat :=
  strftime_y_m_d p.date ++ 95 :: p.podcast_name ++ 95 :: p.interviewee_name ++
    95 :: p.platform ++ 95 :: fmt02 p.count

/-- All ways to split a string at an underscore: pairs (pre, post) with
input = pre ++ 95 :: post, ordered by increasing length of pre. This is
the order in which a lazy regex group followed by a literal underscore
proposes splits during backtracking. -/
def underscoreSplits : List Nat → List (List Nat × List Nat)
  | [] => []
  | c :: r =>
    (if c = 95 then [(([] : List Nat), r)] else []) ++
      (underscoreSplits r).map (fun p => (c :: p.1, p.2))

/-- A segment acceptable to a lazy dot-plus group: nonempty, and free of
newlines because the regex dot does not match a newline. -/
def segOk (seg : List Nat) : Bool := !seg.isEmpty && !seg.contains 10

def isDigitCode (n : Nat) : Bool := 48 ≤ n && n ≤ 57

/-- Matches the final two-digit group anchored at the end of the string; a
Python dollar anchor also accepts a position just before one trailing
newline. -/
def matchDigits2End (r : List Nat) : Option Nat :=
  match r with
  | [d1, d2] =>
    if isDigitCode d1 && isDigitCode d2 then some ((d1 - 48) * 10 + (d2 - 48)) else none
  | [d1, d2, c] =>
    if isDigitCode d1 && isDigitCode d2 && c == 10 then some ((d1 - 48) * 10 + (d2 - 48))
    else none
  | _ => none

/-- Matches the tail of the PodcastID.from_string pattern after the date
group: three lazy dot-plus groups separated by literal underscores, then
one underscore and the final two-digit group. The backtracking engine
tries the shortest first group first, then for each choice the shortest
second group, then the shortest third group; the first complete match
wins. -/
def matchTail (r : List Nat) : Option (List Nat × List Nat × List Nat × Nat) :=
  (underscoreSplits r).findSome? fun pa =>
    if segOk pa.1 then
      (underscoreSplits pa.2).findSome? fun pb =>
        if segOk pb.1 then
          (underscoreSplits pb.2).findSome? fun pc =>
            if segOk pc.1 then
              (matchDigits2End pc.2).map fun n => (pa.1, pb.1, pc.1, n)
            else none
        else none
    else none

/-- The full anchored pattern of PodcastID.from_string: a group of three
two-digit numbers separated by underscores, a literal underscore, then the
tail pattern. Returns the numeric values of the date digits and the three
string groups with the count. -/
def matchIdPattern (s : List Nat) :
    Option ((Nat × Nat × Nat) × List Nat × List Nat × List Nat × Nat) :=
  match s with
  | y1 :: y2 :: u1 :: m1 :: m2 :: u2 :: d1 :: d2 :: u3 :: rest =>
    if isDigitCode y1 && isDigitCode y2 && u1 == 95 && isDigitCode m1 && isDigitCode m2 &&
        u2 == 95 && isDigitCode d1 && isDigitCode d2 && u3 == 95 then
      (matchTail rest).map fun g =>
        (((y1 - 48) * 10 + (y2 - 48), (m1 - 48) * 10 + (m2 - 48), (d1 - 48) * 10 + (d2 - 48)), g)
    else none
  | _ => none

/-- Python strptime directive for two-digit years: values 0 to 68 map into
the 2000s, 69 to 99 into the 1900s. -/
def expandY2 (y2 : Nat) : Nat := if y2 ≤ 68 then 2000 + y2 else 1900 + y2

inductive FromStringErr where
  | formatError
  | dateError
deriving DecidableEq

instance {α β : Type} [DecidableEq α] [DecidableEq β] : DecidableEq (Except α β) := fun a b =>
  match a, b with
  | .ok x, .ok y => if h : x = y then .isTrue (by rw [h]) else .isFalse (by intro hc; cases hc; exact h rfl)
  | .error x, .error y => if h : x = y then .isTrue (by rw [h]) else .isFalse (by intro hc; cases hc; exact h rfl)
  | .ok _, .error _ => .isFalse (by intro hc; cases hc)
  | .error _, .ok _ => .isFalse (by intro hc; cases hc)

/-- Class method PodcastID.from_string: lazily match the fixed positional
pattern; on failure raise the invalid-format error; otherwise parse the
date group with strptime (which validates the calendar date) and rebuild a
PodcastID through the constructor, which re-sanitizes the two name groups
and lowercases the platform group. -/
def PodcastID.from_string (s : List Nat) : Except FromStringErr PodcastID :=
  match matchIdPattern s with
  | none => .error .formatError
  | some ((yy, mm, dd), a, b, c, n) =>
    let y := expandY2 yy
    if ValidDate y mm dd then .ok (PodcastID.make ⟨y, mm, dd⟩ a b c n)
    else .error .dateError

/-- Dict lookup with integer default zero: cache.get(key, 0). -/
def cacheGet (cache : List (List Nat × Nat)) (k : List Nat) : Nat :=
  match cache.find? (fun p => p.1 == k) with
  | some p => p.2
  | none => 0

/-- Dict assignment cache[key] = v: replace the value at an existing key in
place, otherwise append the new binding. -/
def cacheSet (cache : List (List Nat × Nat)) (k : List Nat) (v : Nat) : List (List Nat × Nat) :=
  match cache with
  | [] => [(k, v)]
  | p :: rest => if p.1 == k then (k, v) :: rest else p :: cacheSet rest k v

/-- Class IDGenerator: holds the per-key counter cache id_cache. -/
structure IDGenerator where
  id_cache : List (List Nat × Nat)
deriving DecidableEq

/-- IDGenerator.generate_id (identical in both copies): the grouping key is
the raw, unsanitized podcast and interviewee names joined by an
underscore; the count stored for the key is incremented and written back,
and a PodcastID is built via the constructor. -/
def IDGenerator.generate_id (g : IDGenerator) (date : PyDate)
    (podcast_name interviewee_name platform : List Nat) : PodcastID × IDGenerator :=
  let key := podcast_name ++ 95 :: interviewee_name
  let count := cacheGet g.id_cache key + 1
  (PodcastID.make date podcast_name interviewee_name platform count,
    ⟨cacheSet g.id_cache key count⟩)

/-- The n-th result of a sequence of generate_id calls on one generator that
all share the grouping key (same podcast and interviewee names); the date
and platform of each call are supplied by f. -/
def genCalls (g : IDGenerator) (podcast_name interviewee_name : List Nat)
    (f : Nat → PyDate × List Nat) : Nat → PodcastID × IDGenerator
  | 0 => g.generate_id (f 0).1 podcast_name interviewee_name (f 0).2
  | n + 1 =>
    (genCalls g podcast_name interviewee_name f n).2.generate_id
      (f (n + 1)).1 podcast_name interviewee_name (f (n + 1)).2

/-- JSON documents, the shape handled by Python json.loads and json.dump
for the data this repository stores. Object entries keep Python dict
semantics (assignment replaces the value at the first occurrence of the
key, new keys append). Numbers keep their raw lexeme: the repository
serializes only strings and nested objects, so numeric semantics are never
consumed. -/
inductive JsonVal where
  | jnull : JsonVal
  | jbool : Bool → JsonVal
  | jnum : List Nat → JsonVal
  | jstr : List Nat → JsonVal
  | jarr : List JsonVal → JsonVal
  | jobj : List (List Nat × JsonVal) → JsonVal

/-- Python dict assignment d[k] = v: replace in place or append. -/
def dictSet (d : List (List Nat × JsonVal)) (k : List Nat) (v : JsonVal) :
    List (List Nat × JsonVal) :=
  match d with
  | [] => [(k, v)]
  | p :: rest => if p.1 == k then (k, v) :: rest else p :: dictSet rest k v

/-- Python dict lookup d.get(k). -/
def dictGet? (d : List (List Nat × JsonVal)) (k : List Nat) : Option JsonVal :=
  match d.find? (fun p => p.1 == k) with
  | some p => some p.2
  | none => none

/-- Building a dict from a key-value sequence in order, later keys
overriding earlier ones, as the json.loads object hook does. -/
def mkDict (kvs : List (List Nat × JsonVal)) : List (List Nat × JsonVal) :=
  kvs.foldl (fun d kv => dictSet d kv.1 kv.2) []

def spaces : Nat → List Nat
  | 0 => []
  | n + 1 => 32 :: spaces n

def hexDigitCode (n : Nat) : Nat := if n < 10 then 48 + n else 87 + n

/-- JSON string escaping as json.dump performs it with the default
ensure_ascii setting: quote, backslash and control characters get their
escapes, other ASCII passes through, and non-ASCII code points are written
as a four-hex-digit unicode escape. Code points above 0xFFFF, which CPython
writes as surrogate pairs, do not occur in the modeled data and are written
as a single escape here. -/
def escapeJsonChar (c : Nat) : List Nat :=
  if c = 34 then [92, 34]
  else if c = 92 then [92, 92]
  else if c = 10 then [92, 110]
  else if c = 13 then [92, 114]
  else if c = 9 then [92, 116]
  else if c = 8 then [92, 98]
  else if c = 12 then [92, 102]
  else if c < 32 ∨ 128 ≤ c then
    [92, 117, hexDigitCode (c / 4096 % 16), hexDigitCode (c / 256 % 16),
      hexDigitCode (c / 16 % 16), hexDigitCode (c % 16)]
  else [c]

def dumpStr (s : List Nat) : List Nat := 34 :: (s.map escapeJsonChar).flatten ++ [34]

mutual
/-- json.dump with indent 2, at nesting level lvl: each child of a
container sits on its own line indented two spaces further, items are
separated by a comma at the end of the previous line, keys use the
key-colon-space separator, and empty containers print on one line. -/
def dumpVal (lvl : Nat) : JsonVal → List Nat
  | .jnull => codes "null"
  | .jbool true => codes "true"
  | .jbool false => codes "false"
  | .jnum lx => lx
  | .jstr s => dumpStr s
  | .jarr [] => [91, 93]
  | .jarr (x :: xs) => 91 :: dumpItems lvl (x :: xs) ++ (10 :: spaces (2 * lvl)) ++ [93]
  | .jobj [] => [123, 125]
  | .jobj (kv :: kvs) => 123 :: dumpMembers lvl (kv :: kvs) ++ (10 :: spaces (2 * lvl)) ++ [125]

def dumpItems (lvl : Nat) : List JsonVal → List Nat
  | [] => []
  | [x] => (10 :: spaces (2 * (lvl + 1))) ++ dumpVal (lvl + 1) x
  | x :: y :: xs =>
    (10 :: spaces (2 * (lvl + 1))) ++ dumpVal (lvl + 1) x ++ [44] ++ dumpItems lvl (y :: xs)

def dumpMembers (lvl : Nat) : List (List Nat × JsonVal) → List Nat
  | [] => []
  | [kv] => (10 :: spaces (2 * (lvl + 1))) ++ dumpStr kv.1 ++ [58, 32] ++ dumpVal (lvl + 1) kv.2
  | kv :: kv2 :: kvs =>
    (10 :: spaces (2 * (lvl + 1))) ++ dumpStr kv.1 ++ [58, 32] ++ dumpVal (lvl + 1) kv.2 ++
      [44] ++ dumpMembers lvl (kv2 :: kvs)
end

/-- Whitespace skipped by the JSON grammar. -/
def jsonWs (s : List Nat) : List Nat :=
  s.dropWhile (fun c => c == 32 || c == 9 || c == 10 || c == 13)

def hexVal (c : Nat) : Option Nat :=
  if 48 ≤ c ∧ c ≤ 57 then some (c - 48)
  else if 97 ≤ c ∧ c ≤ 102 then some (c - 87)
  else if 65 ≤ c ∧ c ≤ 70 then some (c - 55)
  else none

/-- Scans a JSON string body after the opening quote, strict mode: raw
control characters are rejected, the standard escapes decode, and a
unicode escape decodes to one code point (surrogate-pair recombination is
not modeled; the stored data never needs it). Returns the decoded string
and the input after the closing quote. -/
def scanJsonString : List Nat → Option (List Nat × List Nat)
  | [] => none
  | 34 :: rest => some ([], rest)
  | 92 :: esc =>
    match esc with
    | 34 :: r => (scanJsonString r).map (fun p => (34 :: p.1, p.2))
    | 92 :: r => (scanJsonString r).map (fun p => (92 :: p.1, p.2))
    | 47 :: r => (scanJsonString r).map (fun p => (47 :: p.1, p.2))
    | 98 :: r => (scanJsonString r).map (fun p => (8 :: p.1, p.2))
    | 102 :: r => (scanJsonString r).map (fun p => (12 :: p.1, p.2))
    | 110 :: r => (scanJsonString r).map (fun p => (10 :: p.1, p.2))
    | 114 :: r => (scanJsonString r).map (fun p => (13 :: p.1, p.2))
    | 116 :: r => (scanJsonString r).map (fun p => (9 :: p.1, p.2))
    | 117 :: h1 :: h2 :: h3 :: h4 :: r =>
      match hexVal h1, hexVal h2, hexVal h3, hexVal h4 with
      | some a, some b, some c, some d =>
        (scanJsonString r).map (fun p => ((a * 4096 + b * 256 + c * 16 + d) :: p.1, p.2))
      | _, _, _, _ => none
    | _ => none
  | c :: rest =>
    if c < 32 then none else (scanJsonString rest).map (fun p => (c :: p.1, p.2))

/-- Longest leading run of decimal digits. -/
def scanDigits : List Nat → List Nat × List Nat
  | [] => ([], [])
  | c :: r =>
    if isDigitCode c then
      let p := scanDigits r
      (c :: p.1, p.2)
    else ([], c :: r)

def scanExpDigits (acc : List Nat) (s : List Nat) : Option (List Nat × List Nat) :=
  let sp : List Nat × List Nat :=
    match s with
    | 43 :: r => ([43], r)
    | 45 :: r => ([45], r)
    | _ => ([], s)
  match scanDigits sp.2 with
  | ([], _) => none
  | (ds, rest) => some (acc ++ sp.1 ++ ds, rest)

def scanExpPart (acc : List Nat) (s : List Nat) : Option (List Nat × List Nat) :=
  match s with
  | 101 :: r => scanExpDigits (acc ++ [101]) r
  | 69 :: r => scanExpDigits (acc ++ [69]) r
  | _ => some (acc, s)

def scanFracExp (acc : List Nat) (s : List Nat) : Option (List Nat × List Nat) :=
  match s with
  | 46 :: r =>
    match scanDigits r with
    | ([], _) => none
    | (ds, rest) => scanExpPart (acc ++ 46 :: ds) rest
  | _ => scanExpPart acc s

/-- The strict JSON number grammar (optional minus, integer part without
leading zeros, optional fraction and exponent); returns the raw lexeme. -/
def scanJsonNumber (s : List Nat) : Option (List Nat × List Nat) :=
  let sp : List Nat × List Nat :=
    match s with
    | 45 :: r => ([45], r)
    | _ => ([], s)
  match sp.2 with
  | [] => none
  | c :: r =>
    if c = 48 then scanFracExp (sp.1 ++ [48]) r
    else if isDigitCode c then
      let p := scanDigits r
      scanFracExp (sp.1 ++ c :: p.1) p.2
    else none

mutual
/-- Recursive-descent JSON value parser with explicit fuel (json.loads). -/
def parseVal : Nat → List Nat → Option (JsonVal × List Nat)
  | 0, _ => none
  | fuel + 1, s =>
    match s with
    | [] => none
    | 34 :: r => (scanJsonString r).map (fun p => (JsonVal.jstr p.1, p.2))
    | 91 :: r =>
      match jsonWs r with
      | 93 :: r2 => some (.jarr [], r2)
      | r1 => (parseItems fuel r1).map (fun p => (JsonVal.jarr p.1, p.2))
    | 123 :: r =>
      match jsonWs r with
      | 125 :: r2 => some (.jobj [], r2)
      | r1 => (parseMembers fuel r1).map (fun p => (JsonVal.jobj (mkDict p.1), p.2))
    | 116 :: 114 :: 117 :: 101 :: r => some (.jbool true, r)
    | 102 :: 97 :: 108 :: 115 :: 101 :: r => some (.jbool false, r)
    | 110 :: 117 :: 108 :: 108 :: r => some (.jnull, r)
    | _ => (scanJsonNumber s).map (fun p => (JsonVal.jnum p.1, p.2))

def parseItems : Nat → List Nat → Option (List JsonVal × List Nat)
  | 0, _ => none
  | fuel + 1, s =>
    match parseVal fuel s with
    | none => none
    | some (v, r) =>
      match jsonWs r with
      | 44 :: r2 => (parseItems fuel (jsonWs r2)).map (fun p => (v :: p.1, p.2))
      | 93 :: r2 => some ([v], r2)
      | _ => none

def parseMembers : Nat → List Nat → Option (List (List Nat × JsonVal) × List Nat)
  | 0, _ => none
  | fuel + 1, s =>
    match s with
    | 34 :: r =>
      match scanJsonString r with
      | none => none
      | some (k, r1) =>
        match jsonWs r1 with
        | 58 :: r2 =>
          match parseVal fuel (jsonWs r2) with
          | none => none
          | some (v, r3) =>
            match jsonWs r3 with
            | 44 :: r4 => (parseMembers fuel (jsonWs r4)).map (fun p => ((k, v) :: p.1, p.2))
            | 125 :: r4 => some ([(k, v)], r4)
            | _ => none
        | _ => none
    | _ => none
end

/-- Python json.loads on a whole document: one value with only whitespace
around it; anything else raises JSONDecodeError, modeled as none. -/
def pyJsonLoads (s : List Nat) : Option JsonVal :=
  match parseVal (2 * s.length + 4) (jsonWs s) with
  | some (v, rest) => if (jsonWs rest).isEmpty then some v else none
  | none => none

/-- Dataclass Interviewee of src/podcasts/lib/models/podcast.py. -/
structure Interviewee where
  name : List Nat
  profession : List Nat
  organization : List Nat
deriving DecidableEq

/-- Dataclass PodcastEntry of src/podcasts/lib/models/podcast.py; an empty
list models the Python empty-string default. -/
structure PodcastEntry where
  url : List Nat
  platform : List Nat
  title : List Nat
  podcast_name : List Nat
  interviewee : Interviewee
  episode_id : List Nat
  date : List Nat
  status : List Nat
  episodes_file : List Nat
  claims_file : List Nat
  transcripts_file : List Nat
  webvtt_link : List Nat
  process_command : List Nat
  added_at : List Nat
  updated_at : List Nat
deriving DecidableEq

def Interviewee.to_dictJson (i : Interviewee) : JsonVal :=
  .jobj [(codes "name", .jstr i.name), (codes "profession", .jstr i.profession),
    (codes "organization", .jstr i.organization)]

/-- dataclasses.asdict(entry): the declared fields in declaration order,
with the nested dataclass converted recursively. -/
def PodcastEntry.to_dict (e : PodcastEntry) : JsonVal :=
  .jobj [(codes "url", .jstr e.url), (codes "platform", .jstr e.platform),
    (codes "title", .jstr e.title), (codes "podcast_name", .jstr e.podcast_name),
    (codes "interviewee", e.interviewee.to_dictJson),
    (codes "episode_id", .jstr e.episode_id), (codes "date", .jstr e.date),
    (codes "status", .jstr e.status), (codes "episodes_file", .jstr e.episodes_file),
    (codes "claims_file", .jstr e.claims_file),
    (codes "transcripts_file", .jstr e.transcripts_file),
    (codes "webvtt_link", .jstr e.webvtt_link),
    (codes "process_command", .jstr e.process_command),
    (codes "added_at", .jstr e.added_at), (codes "updated_at", .jstr e.updated_at)]

/-- The payload PodcastList._save writes: json.dump of the entry dicts with
indent 2. -/
def serializeEntries (entries : List PodcastEntry) : List Nat :=
  dumpVal 0 (.jarr (entries.map PodcastEntry.to_dict))

/-- PodcastList._save opens the target file with mode w, which truncates it
in place, and then writes the full serialization; a completed save leaves
exactly the serialization. There is no write-to-temporary-and-rename
step. -/
def save_file (entries : List PodcastEntry) : Option (List Nat) :=
  some (serializeEntries entries)

/-- The on-disk contents if the process dies during PodcastList._save after
the truncating open, with only the first k code points written. -/
def save_file_interrupted (entries : List PodcastEntry) (k : Nat) : Option (List Nat) :=
  some ((serializeEntries entries).take k)

/-- Field value extraction used when _load rebuilds entries. The model
restricts dataclass field values to strings, which is what the repository
ever stores; Python itself would accept any value without validation. -/
def jGetStr? (d : List (List Nat × JsonVal)) (k : List Nat) : Option (List Nat) :=
  match dictGet? d k with
  | some (.jstr s) => some s
  | _ => none

/-- Interviewee(**d): every key must be a declared field, name is required,
profession and organization default to the empty string. -/
def intervieweeFromJson : JsonVal → Option Interviewee
  | .jobj d =>
    if d.all (fun kv =>
        kv.1 == codes "name" || kv.1 == codes "profession" || kv.1 == codes "organization") then
      match jGetStr? d (codes "name") with
      | none => none
      | some nm =>
        some ⟨nm, (jGetStr? d (codes "profession")).getD [],
          (jGetStr? d (codes "organization")).getD []⟩
    else none
  | _ => none

def entryFieldNames : List (List Nat) :=
  [codes "url", codes "platform", codes "title", codes "podcast_name", codes "interviewee",
    codes "episode_id", codes "date", codes "status", codes "episodes_file",
    codes "claims_file", codes "transcripts_file", codes "webvtt_link",
    codes "process_command", codes "added_at", codes "updated_at"]

/-- PodcastEntry(**(entry with the interviewee rebuilt)): the interviewee
key is accessed first (KeyError when absent), every key must be a declared
field (TypeError otherwise), the seven fields without defaults are
required, the rest default to pending or the empty string. -/
def entryFromJson : JsonVal → Option PodcastEntry
  | .jobj d =>
    if d.all (fun kv => entryFieldNames.contains kv.1) then
      match dictGet? d (codes "interviewee") with
      | none => none
      | some iv =>
        match intervieweeFromJson iv with
        | none => none
        | some i =>
          match jGetStr? d (codes "url"), jGetStr? d (codes "platform"),
              jGetStr? d (codes "title"), jGetStr? d (codes "podcast_name"),
              jGetStr? d (codes "episode_id"), jGetStr? d (codes "date") with
          | some u, some pf, some t, some pn, some eid, some dt =>
            some ⟨u, pf, t, pn, i, eid, dt,
              (jGetStr? d (codes "status")).getD (codes "pending"),
              (jGetStr? d (codes "episodes_file")).getD [],
              (jGetStr? d (codes "claims_file")).getD [],
              (jGetStr? d (codes "transcripts_file")).getD [],
              (jGetStr? d (codes "webvtt_link")).getD [],
              (jGetStr? d (codes "process_command")).getD [],
              (jGetStr? d (codes "added_at")).getD [],
              (jGetStr? d (codes "updated_at")).getD []⟩
          | _, _, _, _, _, _ => none
    else none
  | _ => none

inductive LoadErr where
  | jsonDecodeError
  | shapeError
deriving DecidableEq

/-- PodcastList._load (src/podcasts/lib/models/podcast.py): an absent file
leaves the freshly initialized empty entry list; a present file goes
through json.load, whose failure propagates as JSONDecodeError (the
DataCorruption case); each array element is then rebuilt into a
PodcastEntry, and construction failures propagate too. Iterating a
non-list document mirrors Python: an empty dict or empty string iterates
zero times and yields an empty store, any other non-list document raises
while iterating or constructing. -/
def load_file (file : Option (List Nat)) : Except LoadErr (List PodcastEntry) :=
  match file with
  | none => .ok []
  | some s =>
    match pyJsonLoads s with
    | none => .error .jsonDecodeError
    | some (.jarr xs) =>
      match xs.mapM entryFromJson with
      | some es => .ok es
      | none => .error .shapeError
    | some (.jobj []) => .ok []
    | some (.jstr []) => .ok []
    | some _ => .error .shapeError

/-- PodcastList.get_entry: the first entry carrying the episode ID. -/
def get_entry (entries : List PodcastEntry) (episode_id : List Nat) : Option PodcastEntry :=
  entries.find? (fun e => e.episode_id == episode_id)

/-- A Python value passed through update_entry keyword arguments: the
string-typed fields take strings, the interviewee field an Interviewee.
Python, being dynamically typed, would also store mismatched values; the
model covers the well-typed calls, which are the only ones the repository
makes. -/
inductive PyVal where
  | vs : List Nat → PyVal
  | vi : Interviewee → PyVal
deriving DecidableEq

/-- The attribute names of a PodcastEntry instance that hasattr reports:
the dataclass fields and the plain methods. Double-underscore attributes
are left out; no caller passes such names. -/
def entryAttrNames : List (List Nat) :=
  entryFieldNames ++ [codes "to_dict", codes "is_complete", codes "update_timestamp"]

/-- setattr(entry, key, value) on the declared fields. Setting a method
name would create an instance attribute shadowing the method while leaving
every dataclass field and the asdict output unchanged, so on the modeled
record it is the identity. -/
def setattrEntry (e : PodcastEntry) (k : List Nat) (v : PyVal) : PodcastEntry :=
  match v with
  | .vi i => if k = codes "interviewee" then { e with interviewee := i } else e
  | .vs s =>
    if k = codes "url" then { e with url := s }
    else if k = codes "platform" then { e with platform := s }
    else if k = codes "title" then { e with title := s }
    else if k = codes "podcast_name" then { e with podcast_name := s }
    else if k = codes "episode_id" then { e with episode_id := s }
    else if k = codes "date" then { e with date := s }
    else if k = codes "status" then { e with status := s }
    else if k = codes "episodes_file" then { e with episodes_file := s }
    else if k = codes "claims_file" then { e with claims_file := s }
    else if k = codes "transcripts_file" then { e with transcripts_file := s }
    else if k = codes "webvtt_link" then { e with webvtt_link := s }
    else if k = codes "process_command" then { e with process_command := s }
    else if k = codes "added_at" then { e with added_at := s }
    else if k = codes "updated_at" then { e with updated_at := s }
    else e

/-- One iteration of the update_entry loop: setattr only when hasattr. -/
def applyKwarg (e : PodcastEntry) (kv : List Nat × PyVal) : PodcastEntry :=
  if entryAttrNames.contains kv.1 then setattrEntry e kv.1 kv.2 else e

def applyKwargs (e : PodcastEntry) (kwargs : List (List Nat × PyVal)) : PodcastEntry :=
  kwargs.foldl applyKwarg e

/-- In-place mutation of the first element satisfying the predicate,
also returning the mutated element (the object Python holds a reference
to). -/
def updateFirst {α : Type} (sat : α → Bool) (f : α → α) : List α → Option α × List α
  | [] => (none, [])
  | e :: rest =>
    if sat e then (some (f e), f e :: rest)
    else
      let p := updateFirst sat f rest
      (p.1, e :: p.2)

inductive UpdateErr where
  | notFound
deriving DecidableEq

/-- PodcastList.update_entry (src/podcasts/lib/models/podcast.py): look the
entry up (ValueError when absent), set every keyword naming an attribute,
refresh updated_at from the clock, save the full store. -/
def update_entry (entries : List PodcastEntry) (episode_id : List Nat)
    (kwargs : List (List Nat × PyVal)) (now : List Nat) :
    Except UpdateErr (List PodcastEntry × Option (List Nat)) :=
  match updateFirst (fun e => e.episode_id == episode_id)
      (fun e => { applyKwargs e kwargs with updated_at := now }) entries with
  | (none, _) => .error .notFound
  | (some _, entries2) => .ok (entries2, save_file entries2)

/-- Strict parse of a ten-character YYYY-MM-DD date validated as a calendar
date. -/
def parseDateYmd (s : List Nat) : Option PyDate :=
  match s with
  | [y1, y2, y3, y4, 45, m1, m2, 45, d1, d2] =>
    if isDigitCode y1 && isDigitCode y2 && isDigitCode y3 && isDigitCode y4 &&
        isDigitCode m1 && isDigitCode m2 && isDigitCode d1 && isDigitCode d2 then
      let y := (y1 - 48) * 1000 + (y2 - 48) * 100 + (y3 - 48) * 10 + (y4 - 48)
      let m := (m1 - 48) * 10 + (m2 - 48)
      let d := (d1 - 48) * 10 + (d2 - 48)
      if ValidDate y m d then some ⟨y, m, d⟩ else none
    else none
  | _ => none

/-- Models datetime.fromisoformat far enough for the modeled flows: the
leading calendar date is validated, and an optional time-of-day part
introduced by T or a space is accepted without further validation, since
only the date portion is consumed downstream. -/
def parseIsoDate (s : List Nat) : Option PyDate :=
  match parseDateYmd (s.take 10) with
  | none => none
  | some d =>
    match s.drop 10 with
    | [] => some d
    | 84 :: _ => some d
    | 32 :: _ => some d
    | _ => none

/-- str.replace with the single-character needle Z: every occurrence
becomes +00:00. -/
def replaceZ (s : List Nat) : List Nat :=
  (s.map (fun c => if c = 90 then codes "+00:00" else [c])).flatten

def fmt04 (n : Nat) : List Nat :=
  if n < 10000 then [48 + n / 1000, 48 + n / 100 % 10, 48 + n / 10 % 10, 48 + n % 10]
  else (Nat.toDigits 10 n).map Char.toNat

/-- date.strftime with format Y-m-d. -/
def strftime_Y_m_d (d : PyDate) : List Nat :=
  fmt04 d.year ++ 45 :: fmt02 d.month ++ 45 :: fmt02 d.day

/-- The metadata dict passed to the newer add_entry, restricted to the keys
the method reads; a missing key is none. The interviewee key may hold a
bare string (just the name) or a nested dict. -/
structure IntervieweeMeta where
  name : Option (List Nat)
  profession : Option (List Nat)
  organization : Option (List Nat)
deriving DecidableEq

structure Metadata where
  published_at : Option (List Nat)
  title : Option (List Nat)
  podcast_name : Option (List Nat)
  interviewee : Option (Sum (List Nat) IntervieweeMeta)
  webvtt_link : Option (List Nat)
deriving DecidableEq

def digitsToNat : List Nat → Option Nat
  | [] => none
  | ds => if ds.all isDigitCode then some (ds.foldl (fun a c => a * 10 + (c - 48)) 0) else none

/-- Python int() on a string: optional sign after stripped spaces, then
decimal digits (the underscore separators int() would also accept never
occur in the consumed data). -/
def pyInt? (s : List Nat) : Option Int :=
  let t := ((s.dropWhile (fun c => c == 32)).reverse.dropWhile (fun c => c == 32)).reverse
  match t with
  | 45 :: ds => (digitsToNat ds).map (fun n => -(n : Int))
  | 43 :: ds => (digitsToNat ds).map (fun n => (n : Int))
  | ds => (digitsToNat ds).map (fun n => (n : Int))

/-- str.split on underscore, last piece. -/
def lastUnderscoreSegment (s : List Nat) : List Nat :=
  match (s.splitOn 95).getLast? with
  | some seg => seg
  | none => []

inductive CacheErr where
  | jsonDecodeError
  | keyError
  | valueError
deriving DecidableEq

/-- One loop iteration of IDGenerator._load_cache
(src/podcasts/lib/generators/id.py): the entry must carry podcast_name, an
interviewee dict with a name, and an episode_id (KeyError propagates
otherwise; the model restricts these values to strings, the only shape the
repository writes); the trailing count segment goes through int()
(failures propagate; the two str.replace calls are no-ops on a split
piece, which cannot contain an underscore, and are omitted); the cache
keeps the maximum count per grouping key. -/
def cacheFromEntry (cache : List (List Nat × Nat)) (v : JsonVal) :
    Except CacheErr (List (List Nat × Nat)) :=
  match v with
  | .jobj d =>
    match dictGet? d (codes "podcast_name"), dictGet? d (codes "interviewee") with
    | some (.jstr pn), some (.jobj di) =>
      match dictGet? di (codes "name") with
      | some (.jstr nm) =>
        match dictGet? d (codes "episode_id") with
        | some (.jstr eid) =>
          match pyInt? (lastUnderscoreSegment eid) with
          | some c =>
            let key := pn ++ 95 :: nm
            .ok (cacheSet cache key (max (cacheGet cache key) c.toNat))
          | none => .error .valueError
        | _ => .error .keyError
      | _ => .error .keyError
    | _, _ => .error .keyError
  | _ => .error .keyError

/-- IDGenerator._load_cache over the whole store file: an absent file gives
the empty cache, otherwise the file goes through json.load (failures
propagate) and the entries are folded; iterating an empty non-list
document iterates zero times, any other non-list document fails inside
the loop. -/
def loadCacheFromFile (file : Option (List Nat)) : Except CacheErr (List (List Nat × Nat)) :=
  match file with
  | none => .ok []
  | some s =>
    match pyJsonLoads s with
    | none => .error .jsonDecodeError
    | some (.jarr xs) => xs.foldlM cacheFromEntry []
    | some (.jobj []) => .ok []
    | some (.jstr []) => .ok []
    | some _ => .error .keyError

inductive AddErr where
  | missingPublishedAt
  | invalidDate
  | cacheError : CacheErr → AddErr
deriving DecidableEq

/-- PodcastList.add_entry (src/podcasts/lib/models/podcast.py). No
duplicate-URL check happens here (the CLI layer prompts instead);
published_at is required and parsed as an ISO date after the Z
replacement; the interviewee metadata may be a bare string or a dict with
defaults; with no existing_id a fresh IDGenerator is built from the store
file on disk and queried once; the entry is appended and the whole store
saved before returning it. -/
def add_entry (entries : List PodcastEntry) (storeFile : Option (List Nat))
    (url platform : List Nat) (metadata : Metadata) (existing_id : Option (List Nat))
    (now : List Nat) :
    Except AddErr (List PodcastEntry × Option (List Nat) × PodcastEntry) :=
  match metadata.published_at with
  | none => .error .missingPublishedAt
  | some pa =>
    match parseIsoDate (replaceZ pa) with
    | none => .error .invalidDate
    | some date =>
      let interviewee : Interviewee :=
        match metadata.interviewee with
        | none => ⟨codes "Unknown", [], []⟩
        | some (.inl s) => ⟨s, [], []⟩
        | some (.inr md) =>
          ⟨md.name.getD (codes "Unknown"), md.profession.getD [], md.organization.getD []⟩
      match (match existing_id with
             | some eid => Except.ok eid
             | none =>
               (loadCacheFromFile storeFile).map (fun cache =>
                 ((IDGenerator.mk cache).generate_id date
                   (metadata.podcast_name.getD (codes "Unknown Podcast"))
                   interviewee.name platform).1.base_id)) with
      | .error e => .error (.cacheError e)
      | .ok episode_id =>
        let entry : PodcastEntry :=
          { url := url, platform := platform,
            title := metadata.title.getD (codes "Untitled"),
            podcast_name := metadata.podcast_name.getD (codes "Unknown Podcast"),
            interviewee := interviewee, episode_id := episode_id,
            date := strftime_Y_m_d date, status := codes "pending",
            episodes_file := [], claims_file := [], transcripts_file := [],
            webvtt_link := metadata.webvtt_link.getD [],
            process_command := codes "python main.py process-podcast --episode_id " ++ episode_id,
            added_at := now, updated_at := now }
        let entries2 := entries ++ [entry]
        .ok (entries2, save_file entries2, entry)

/-- The dict save_state builds: episode_id, status, then the extra keyword
arguments in order (Python forbids an extra keyword clashing with the two
positional names). -/
def save_state_dict (episode_id status : List Nat) (extra : List (List Nat × JsonVal)) :
    List (List Nat × JsonVal) :=
  mkDict ((codes "episode_id", JsonVal.jstr episode_id) ::
    (codes "status", JsonVal.jstr status) :: extra)

/-- save_state of src/podcasts/lib/models/podcast.py and of
src/podcasts/podcast_list.py (the two are identical): build the state dict
and overwrite the current-state file with its json.dump. The prior file
contents are never read. -/
def save_state (episode_id status : List Nat) (extra : List (List Nat × JsonVal))
    (priorFile : Option (List Nat)) : Option (List Nat) :=
  some (dumpVal 0 (.jobj (save_state_dict episode_id status extra)))

namespace OldList

/-- Dataclass PodcastEntry of src/podcasts/podcast_list.py, the older
store: no webvtt_link, process_command or timestamps. -/
structure PodcastEntry where
  url : List Nat
  platform : List Nat
  title : List Nat
  podcast_name : List Nat
  interviewee : Interviewee
  episode_id : List Nat
  date : List Nat
  status : List Nat
  episodes_file : List Nat
  claims_file : List Nat
  transcripts_file : List Nat
deriving DecidableEq

/-- PodcastEntry.is_complete: all three generated-file fields truthy. -/
def PodcastEntry.is_complete (e : PodcastEntry) : Bool :=
  !e.episodes_file.isEmpty && !e.claims_file.isEmpty && !e.transcripts_file.isEmpty

def PodcastEntry.to_dict (e : PodcastEntry) : JsonVal :=
  .jobj [(codes "url", .jstr e.url), (codes "platform", .jstr e.platform),
    (codes "title", .jstr e.title), (codes "podcast_name", .jstr e.podcast_name),
    (codes "interviewee", e.interviewee.to_dictJson),
    (codes "episode_id", .jstr e.episode_id), (codes "date", .jstr e.date),
    (codes "status", .jstr e.status), (codes "episodes_file", .jstr e.episodes_file),
    (codes "claims_file", .jstr e.claims_file),
    (codes "transcripts_file", .jstr e.transcripts_file)]

/-- PodcastList._save of the older store. -/
def serializeEntries (entries : List PodcastEntry) : List Nat :=
  dumpVal 0 (.jarr (entries.map PodcastEntry.to_dict))

/-- PodcastList.get_entry of the older store. -/
def get_entry (entries : List PodcastEntry) (episode_id : List Nat) : Option PodcastEntry :=
  entries.find? (fun e => e.episode_id == episode_id)

/-- The metadata dict consumed by the older add_entry: air_date, title,
podcast_name and the interviewee name are accessed unconditionally
(KeyError when absent), profession and organization default to the empty
string. -/
structure Metadata where
  air_date : Option (List Nat)
  title : Option (List Nat)
  podcast_name : Option (List Nat)
  interviewee_name : Option (List Nat)
  interviewee_profession : Option (List Nat)
  interviewee_organization : Option (List Nat)
deriving DecidableEq

/-- str.split on T, first piece. -/
def splitT_first (s : List Nat) : List Nat := s.takeWhile (fun c => c != 84)

/-- One loop iteration of IDGenerator._load_id_cache
(src/podcasts/id_generator.py, the generator the older store imports):
entries missing podcast_name or interviewee are skipped, present
interviewee dicts must carry a name, and the cache counts one per entry
and key rather than reading the trailing count. Non-dict entries are not
modeled (the membership test would not raise only on sized containers;
the stored data is always a dict). -/
def cacheFromEntryOld (cache : List (List Nat × Nat)) (v : JsonVal) :
    Except CacheErr (List (List Nat × Nat)) :=
  match v with
  | .jobj d =>
    if ((dictGet? d (codes "podcast_name")).isSome && (dictGet? d (codes "interviewee")).isSome) then
      match dictGet? d (codes "podcast_name"), dictGet? d (codes "interviewee") with
      | some (.jstr pn), some (.jobj di) =>
        match dictGet? di (codes "name") with
        | some (.jstr nm) =>
          let key := pn ++ 95 :: nm
          .ok (cacheSet cache key (cacheGet cache key + 1))
        | _ => .error .keyError
      | _, _ => .error .keyError
    else .ok cache
  | _ => .error .keyError

/-- IDGenerator._load_id_cache over the database file of the older
generator. -/
def loadIdCacheOld (file : Option (List Nat)) : Except CacheErr (List (List Nat × Nat)) :=
  match file with
  | none => .ok []
  | some s =>
    match pyJsonLoads s with
    | none => .error .jsonDecodeError
    | some (.jarr xs) => xs.foldlM cacheFromEntryOld []
    | some (.jobj []) => .ok []
    | some (.jstr []) => .ok []
    | some _ => .error .keyError

inductive AddErr where
  | duplicateURL
  | keyError
  | invalidDate
  | cacheError : CacheErr → AddErr
deriving DecidableEq

/-- PodcastList.add_entry of src/podcasts/podcast_list.py. The duplicate
check runs before everything else, so every failure leaves both the
in-memory entry list and the store file untouched (the function returns
the unchanged pair alongside the error). On success the entry is appended
and the whole store saved. The generator database file is the older
generator default (Config.DATABASE) and is passed in separately. -/
def add_entry (entries : List PodcastEntry) (storeFile : Option (List Nat))
    (dbFile : Option (List Nat)) (url platform : List Nat) (metadata : Metadata) :
    Except AddErr PodcastEntry × List PodcastEntry × Option (List Nat) :=
  if entries.any (fun e => e.url == url) then
    (.error .duplicateURL, entries, storeFile)
  else
    match metadata.air_date with
    | none => (.error .keyError, entries, storeFile)
    | some ad =>
      match parseDateYmd (splitT_first ad) with
      | none => (.error .invalidDate, entries, storeFile)
      | some date =>
        match metadata.interviewee_name, metadata.podcast_name, metadata.title with
        | some ivname, some pn, some ttl =>
          let interviewee : Interviewee :=
            ⟨ivname, metadata.interviewee_profession.getD [],
              metadata.interviewee_organization.getD []⟩
          match loadIdCacheOld dbFile with
          | .error e => (.error (.cacheError e), entries, storeFile)
          | .ok cache =>
            let pid := ((IDGenerator.mk cache).generate_id date pn ivname platform).1
            let entry : PodcastEntry :=
              { url := url, platform := platform, title := ttl, podcast_name := pn,
                interviewee := interviewee, episode_id := pid.base_id,
                date := strftime_Y_m_d date, status := codes "pending",
                episodes_file := [], claims_file := [], transcripts_file := [] }
            let entries2 := entries ++ [entry]
            (.ok entry, entries2, some (serializeEntries entries2))
        | _, _, _ => (.error .keyError, entries, storeFile)

def entryFieldNamesOld : List (List Nat) :=
  [codes "url", codes "platform", codes "title", codes "podcast_name", codes "interviewee",
    codes "episode_id", codes "date", codes "status", codes "episodes_file",
    codes "claims_file", codes "transcripts_file"]

def entryAttrNamesOld : List (List Nat) :=
  entryFieldNamesOld ++ [codes "to_dict", codes "is_complete"]

/-- setattr on the older entry, same conventions as setattrEntry. -/
def setattrEntryOld (e : PodcastEntry) (k : List Nat) (v : PyVal) : PodcastEntry :=
  match v with
  | .vi i => if k = codes "interviewee" then { e with interviewee := i } else e
  | .vs s =>
    if k = codes "url" then { e with url := s }
    else if k = codes "platform" then { e with platform := s }
    else if k = codes "title" then { e with title := s }
    else if k = codes "podcast_name" then { e with podcast_name := s }
    else if k = codes "episode_id" then { e with episode_id := s }
    else if k = codes "date" then { e with date := s }
    else if k = codes "status" then { e with status := s }
    else if k = codes "episodes_file" then { e with episodes_file := s }
    else if k = codes "claims_file" then { e with claims_file := s }
    else if k = codes "transcripts_file" then { e with transcripts_file := s }
    else e

def applyKwargOld (e : PodcastEntry) (kv : List Nat × PyVal) : PodcastEntry :=
  if entryAttrNamesOld.contains kv.1 then setattrEntryOld e kv.1 kv.2 else e

def applyKwargsOld (e : PodcastEntry) (kwargs : List (List Nat × PyVal)) : PodcastEntry :=
  kwargs.foldl applyKwargOld e

/-- PodcastList.update_entry of src/podcasts/podcast_list.py: an absent ID
returns None without saving; otherwise every keyword naming an attribute
is set, then the status is force-promoted to complete whenever all three
file fields are nonempty, the store is saved, and the mutated entry
returned. -/
def update_entry (entries : List PodcastEntry) (storeFile : Option (List Nat))
    (episode_id : List Nat) (kwargs : List (List Nat × PyVal)) :
    Option PodcastEntry × List PodcastEntry × Option (List Nat) :=
  match updateFirst (fun e => e.episode_id == episode_id)
      (fun e =>
        let e2 := applyKwargsOld e kwargs
        if e2.is_complete then { e2 with status := codes "complete" } else e2) entries with
  | (none, _) => (none, entries, storeFile)
  | (some e2, entries2) => (some e2, entries2, some (serializeEntries entries2))

end OldList

namespace MainPy

/-- The two platform state files of src/podcasts/main.py. -/
structure StateFiles where
  youtube : Option (List Nat)
  vimeo : Option (List Nat)

/-- get_state_file: an explicit platform wins; otherwise whichever
platform-specific file already exists, defaulting to the YouTube one.
Returns true when the YouTube slot is selected. -/
def get_state_file_isYoutube (platform_type : Option (List Nat)) (fs : StateFiles) : Bool :=
  if platform_type = some (codes "youtube") then true
  else if platform_type = some (codes "vimeo") then false
  else if fs.youtube.isSome then true
  else if fs.vimeo.isSome then false
  else true

/-- Python truthiness of an optional string argument defaulting to None:
None and the empty string are falsy. -/
def truthyStr : Option (List Nat) → Bool
  | none => false
  | some [] => false
  | some (_ :: _) => true

/-- Python truthiness of an optional dict argument: None and the empty
dict are falsy. -/
def truthyDict : Option (List (List Nat × JsonVal)) → Bool
  | none => false
  | some [] => false
  | some (_ :: _) => true

inductive StateErr where
  | jsonDecodeError
  | notAnObject
deriving DecidableEq

/-- save_state of src/podcasts/main.py: pick the platform state file, read
and parse it when it exists (json.load failures propagate; a non-dict
document fails at the first key assignment), update the episode_id,
transcript_file and metadata keys only when the corresponding argument is
truthy, and write the result back. Keys already present in the file and
not updated in this call survive. -/
def save_state (platform_type episode_id transcript_file : Option (List Nat))
    (metadata : Option (List (List Nat × JsonVal))) (fs : StateFiles) :
    Except StateErr StateFiles :=
  let isYt := get_state_file_isYoutube platform_type fs
  let cur : Option (List Nat) := if isYt then fs.youtube else fs.vimeo
  match (match cur with
         | none => Except.ok ([] : List (List Nat × JsonVal))
         | some s =>
           match pyJsonLoads s with
           | none => Except.error StateErr.jsonDecodeError
           | some (.jobj d) => Except.ok d
           | some _ => Except.error StateErr.notAnObject) with
  | .error e => .error e
  | .ok st0 =>
    let st1 := if truthyStr episode_id then
        dictSet st0 (codes "episode_id") (.jstr (episode_id.getD [])) else st0
    let st2 := if truthyStr transcript_file then
        dictSet st1 (codes "transcript_file") (.jstr (transcript_file.getD [])) else st1
    let st3 := if truthyDict metadata then
        dictSet st2 (codes "metadata") (.jobj (metadata.getD [])) else st2
    let out := some (dumpVal 0 (.jobj st3))
    .ok (if isYt then { fs with youtube := out } else { fs with vimeo := out })

end MainPy

/-- Reads a field of the entry by its Python attribute name; used to state
frame properties uniformly over field names. -/
def getField (e : PodcastEntry) (k : List Nat) : Option PyVal :=
  if k = codes "url" then some (.vs e.url)
  else if k = codes "platform" then some (.vs e.platform)
  else if k = codes "title" then some (.vs e.title)
  else if k = codes "podcast_name" then some (.vs e.podcast_name)
  else if k = codes "interviewee" then some (.vi e.interviewee)
  else if k = codes "episode_id" then some (.vs e.episode_id)
  else if k = codes "date" then some (.vs e.date)
  else if k = codes "status" then some (.vs e.status)
  else if k = codes "episodes_file" then some (.vs e.episodes_file)
  else if k = codes "claims_file" then some (.vs e.claims_file)
  else if k = codes "transcripts_file" then some (.vs e.transcripts_file)
  else if k = codes "webvtt_link" then some (.vs e.webvtt_link)
  else if k = codes "process_command" then some (.vs e.process_command)
  else if k = codes "added_at" then some (.vs e.added_at)
  else if k = codes "updated_at" then some (.vs e.updated_at)
  else none

/-- A keyword argument whose value has the Python type the named field
holds in the repository: an Interviewee for the interviewee field, a
string for everything else. -/
def wellTypedKV (k : List Nat) (v : PyVal) : Bool :=
  match v with
  | .vs _ => k != codes "interviewee"
  | .vi _ => k == codes "interviewee"

/-- Projection used by concrete checks: the URLs of the entries in a
successful add_entry result. -/
def addResultUrls (r : Except AddErr (List PodcastEntry × Option (List Nat) × PodcastEntry)) :
    Option (List (List Nat)) :=
  r.toOption.map (fun p => p.1.map PodcastEntry.url)

/-- A concrete entry which several concrete checks start from. -/
def entryA : PodcastEntry :=
  ⟨codes "https://yt/a", codes "youtube", codes "T", codes "Pod", ⟨codes "Neil", [], []⟩,
    codes "24_09_24_pod_neil_youtube_01", codes "2024-09-24", codes "pending",
    [], [], [], [], codes "cmd", codes "t0", codes "t0"⟩

/-- A concrete metadata dict with a valid published_at. -/
def metaA : Metadata :=
  ⟨some (codes "2024-09-25T00:00:00Z"), some (codes "T2"), some (codes "Pod"),
    some (.inr ⟨some (codes "Neil"), none, none⟩), none⟩

/-- The entry a minimal concrete add_entry call produces. -/
def wEntry : PodcastEntry :=
  ⟨codes "u1", codes "youtube", codes "Untitled", codes "Unknown Podcast",
    ⟨codes "Unknown", [], []⟩, codes "24_09_24_unknown_podcast_unknown_youtube_01",
    codes "2024-09-24", codes "pending", [], [], [], [],
    codes "python main.py process-podcast --episode_id 24_09_24_unknown_podcast_unknown_youtube_01",
    codes "t0", codes "t0"⟩

/-- A concrete entry of the older store. -/
def oldEntryA : OldList.PodcastEntry :=
  ⟨codes "https://yt/a", codes "youtube", codes "T", codes "Pod", ⟨codes "Neil", [], []⟩,
    codes "24_09_24_pod_neil_youtube_01", codes "2024-09-24", codes "pending", [], [], []⟩

/-- A concrete entry of the older store with two of the three generated
files already recorded. -/
def oldEntryB : OldList.PodcastEntry :=
  ⟨codes "https://yt/b", codes "youtube", codes "T", codes "Pod", ⟨codes "Neil", [], []⟩,
    codes "24_09_24_pod_neil_youtube_02", codes "2024-09-24", codes "processing",
    codes "e.md", codes "c.md", []⟩

/-- What the older update_entry turns oldEntryB into when the call records
the final transcript file while asking for status pending. -/
def oldEntryBDone : OldList.PodcastEntry :=
  ⟨codes "https://yt/b", codes "youtube", codes "T", codes "Pod", ⟨codes "Neil", [], []⟩,
    codes "24_09_24_pod_neil_youtube_02", codes "2024-09-24", codes "complete",
    codes "e.md", codes "c.md", codes "t.vtt"⟩

end Podcasts

namespace Podcasts

theorem collapseUnderscores_cons2 (a b : Nat) (r : List Nat) :
    collapseUnderscores (a :: b :: r) =
      if a == 95 && b == 95 then collapseUnderscores (b :: r)
      else a :: collapseUnderscores (b :: r) := rfl

theorem mem_of_mem_collapseUnderscores {c : Nat} :
    ∀ {l : List Nat}, c ∈ collapseUnderscores l → c ∈ l := by
  intro l
  induction l with
  | nil => simp [collapseUnderscores]
  | cons a rest ih =>
    cases rest with
    | nil => simp [collapseUnderscores]
    | cons b r =>
      rw [collapseUnderscores_cons2]
      split
      · intro h
        exact List.mem_cons_of_mem a (ih h)
      · intro h
        rcases List.mem_cons.mp h with h1 | h2
        · exact h1 ▸ List.mem_cons_self _ _
        · exact List.mem_cons_of_mem a (ih h2)

theorem head?_collapseUnderscores :
    ∀ (l : List Nat), (collapseUnderscores l).head? = l.head? := by
  intro l
  induction l with
  | nil => rfl
  | cons a rest ih =>
    cases rest with
    | nil => rfl
    | cons b r =>
      rw [collapseUnderscores_cons2]
      split
      · rename_i hcond
        have hab : a = 95 ∧ b = 95 := by
          constructor <;> [skip; skip] <;>
            simp only [Bool.and_eq_true, beq_iff_eq] at hcond <;> omega
        rw [ih]
        simp [hab.1, hab.2]
      · simp

theorem noDoubleUnderscore_collapseUnderscores :
    ∀ (l : List Nat), noDoubleUnderscore (collapseUnderscores l) = true := by
  intro l
  induction l with
  | nil => rfl
  | cons a rest ih =>
    cases rest with
    | nil => rfl
    | cons b r =>
      rw [collapseUnderscores_cons2]
      split
      · exact ih
      · rename_i hcond
        have hhead := head?_collapseUnderscores (b :: r)
        cases hcu : collapseUnderscores (b :: r) with
        | nil => simp [hcu] at hhead
        | cons x t =>
          rw [hcu] at hhead ih
          simp only [List.head?] at hhead
          have hx : x = b := by injection hhead
          subst hx
          simp [noDoubleUnderscore, hcond, ih]

theorem collapseUnderscores_of_noDoubleUnderscore :
    ∀ (l : List Nat), noDoubleUnderscore l = true → collapseUnderscores l = l := by
  intro l
  induction l with
  | nil => intro _; rfl
  | cons a rest ih =>
    cases rest with
    | nil => intro _; rfl
    | cons b r =>
      intro h
      simp only [noDoubleUnderscore, Bool.and_eq_true, Bool.not_eq_true'] at h
      rw [collapseUnderscores_cons2]
      rw [if_neg (by simp [h.1])]
      rw [ih h.2]

theorem lowerCode_idem (n : Nat) : lowerCode (lowerCode n) = lowerCode n := by
  simp only [lowerCode]
  split_ifs <;> omega

theorem map_id_of_mem {α : Type} (l : List α) (f : α → α) (h : ∀ c ∈ l, f c = c) :
    l.map f = l := by
  induction l with
  | nil => rfl
  | cons a t ih => simp_all

/-- Every code point in the output of sanitize_name is a lowercase fixed
point, is kept by the filter, and is not a space. -/
theorem sanitize_name_mem_spec {c : Nat} {s : List Nat} (h : c ∈ sanitize_name s) :
    lowerCode c = c ∧ keepCode c = true ∧ c ≠ 32 := by
  unfold sanitize_name at h
  have h1 := mem_of_mem_collapseUnderscores h
  rcases List.mem_map.mp h1 with ⟨x, hxmem, hxeq⟩
  rcases List.mem_filter.mp hxmem with ⟨hxlow, hxkeep⟩
  rcases List.mem_map.mp hxlow with ⟨y, _, hyeq⟩
  by_cases hx32 : x = 32
  · subst hx32
    simp only [beq_self_eq_true, if_true] at hxeq
    subst hxeq
    refine ⟨by simp [lowerCode], by simp [keepCode, isWordCode], by omega⟩
  · rw [if_neg (by simpa using hx32)] at hxeq
    subst hxeq
    subst hyeq
    exact ⟨lowerCode_idem y, hxkeep, by
      intro hc
      apply hx32
      exact hc⟩

/-- C4. The name-sanitizing function PodcastID._sanitize_name is idempotent:
sanitizing an already sanitized string changes nothing. Determinism is
inherent: the model is a pure function, so two applications to the same
input are definitionally the same output. -/
theorem sanitize_name_idempotent (s : List Nat) :
    sanitize_name (sanitize_name s) = sanitize_name s := by
  have hmem := fun c hc => sanitize_name_mem_spec (s := s) (c := c) hc
  conv_lhs => rw [sanitize_name]
  rw [map_id_of_mem _ _ (fun c hc => (hmem c hc).1)]
  rw [List.filter_eq_self.mpr (fun c hc => (hmem c hc).2.1)]
  rw [map_id_of_mem _ _ (fun c hc => by
    rw [if_neg]
    simpa using (hmem c hc).2.2)]
  have hnd : noDoubleUnderscore (sanitize_name s) = true := by
    unfold sanitize_name
    exact noDoubleUnderscore_collapseUnderscores _
  exact collapseUnderscores_of_noDoubleUnderscore _ hnd

theorem cacheGet_cacheSet_same (cache : List (List Nat × Nat)) (k : List Nat) (v : Nat) :
    cacheGet (cacheSet cache k v) k = v := by
  induction cache with
  | nil => simp [cacheSet, cacheGet, List.find?]
  | cons p rest ih =>
    by_cases h : p.1 = k
    · simp [cacheSet, cacheGet, List.find?, h]
    · have hb : (p.1 == k) = false := by simpa using h
      simp only [cacheSet, hb, Bool.false_eq_true, if_false]
      simp only [cacheGet, List.find?, hb] at ih ⊢
      exact ih

/-- C3. On one IDGenerator, a sequence of generate_id calls sharing the
grouping key (same podcast and interviewee names, dates and platforms
arbitrary per call) returns IDs whose counters are strictly increasing and
gapless starting at 1, provided the cache starts with no count for that
key (as it does for a fresh generator with no database): the n-th call
returns exactly the PodcastID built with count n+1, whose base_id ends in
the zero-padded two-digit counter. -/
theorem generate_id_gapless_counters (g : IDGenerator) (p iv : List Nat)
    (f : Nat → PyDate × List Nat) (h : cacheGet g.id_cache (p ++ 95 :: iv) = 0) (n : Nat) :
    (genCalls g p iv f n).1 = PodcastID.make (f n).1 p iv (f n).2 (n + 1) ∧
    cacheGet (genCalls g p iv f n).2.id_cache (p ++ 95 :: iv) = n + 1 := by
  induction n with
  | zero =>
    constructor
    · simp [genCalls, IDGenerator.generate_id, h]
    · simp [genCalls, IDGenerator.generate_id, h, cacheGet_cacheSet_same]
  | succ n ih =>
    constructor
    · simp [genCalls, IDGenerator.generate_id, ih.2]
    · simp [genCalls, IDGenerator.generate_id, ih.2, cacheGet_cacheSet_same]

theorem lowerStr_idem (s : List Nat) : lowerStr (lowerStr s) = lowerStr s := by
  induction s with
  | nil => rfl
  | cons a t ih => simp_all [lowerStr, lowerCode_idem]

theorem fmt02_lt100 {n : Nat} (h : n < 100) : fmt02 n = [48 + n / 10, 48 + n % 10] := by
  unfold fmt02
  by_cases h1 : n < 10
  · rw [if_pos h1]
    simp only [List.cons.injEq, and_true]
    omega
  · rw [if_neg h1, if_pos h]

theorem isDigitCode_48add {k : Nat} (h : k ≤ 9) : isDigitCode (48 + k) = true := by
  simp only [isDigitCode, Bool.and_eq_true, decide_eq_true_eq]
  omega

theorem daysInMonth_le31 (y m : Nat) : daysInMonth y m ≤ 31 := by
  unfold daysInMonth
  split_ifs <;> omega

theorem underscoreSplits_append (xs ys : List Nat) (h : 95 ∉ xs) :
    underscoreSplits (xs ++ 95 :: ys) =
      (xs, ys) :: (underscoreSplits ys).map (fun p => (xs ++ 95 :: p.1, p.2)) := by
  induction xs with
  | nil =>
    simp [underscoreSplits]
  | cons c xs ih =>
    have hc : c ≠ 95 := fun hcc => h (hcc ▸ List.mem_cons_self _ _)
    have hxs : 95 ∉ xs := fun hm => h (List.mem_cons_of_mem _ hm)
    have hstep : underscoreSplits ((c :: xs) ++ 95 :: ys) =
        (if c = 95 then [(([] : List Nat), xs ++ 95 :: ys)] else []) ++
          (underscoreSplits (xs ++ 95 :: ys)).map (fun p => (c :: p.1, p.2)) := rfl
    rw [hstep, if_neg hc, List.nil_append, ih hxs]
    simp [List.map_map, Function.comp, List.cons_append]

theorem findSome?_cons_some {α β : Type} (f : α → Option β) (x : α) (xs : List α) (b : β)
    (h : f x = some b) : List.findSome? f (x :: xs) = some b := by
  simp [List.findSome?, h]

/-- The lazy tail pattern, evaluated on a string of the shape produced by
base_id when each group is nonempty and free of underscores and newlines:
the very first backtracking candidate at each level succeeds, so the
groups come back exactly. -/
theorem matchTail_structured (P I L : List Nat) (e1 e2 : Nat)
    (hP1 : segOk P = true) (hP2 : 95 ∉ P)
    (hI1 : segOk I = true) (hI2 : 95 ∉ I)
    (hL1 : segOk L = true) (hL2 : 95 ∉ L)
    (hd1 : isDigitCode e1 = true) (hd2 : isDigitCode e2 = true) :
    matchTail (P ++ 95 :: (I ++ 95 :: (L ++ 95 :: [e1, e2]))) =
      some (P, I, L, (e1 - 48) * 10 + (e2 - 48)) := by
  unfold matchTail
  rw [underscoreSplits_append _ _ hP2]
  apply findSome?_cons_some
  simp only [hP1, if_true]
  rw [underscoreSplits_append _ _ hI2]
  apply findSome?_cons_some
  simp only [hI1, if_true]
  rw [underscoreSplits_append _ _ hL2]
  apply findSome?_cons_some
  simp only [hL1, if_true]
  simp [matchDigits2End, hd1, hd2]

/-- The full pattern on a date prefix followed by a tail: the two-digit
numeric groups are read back and the tail is delegated. -/
theorem matchIdPattern_structured (a b c : Nat) (rest : List Nat)
    (ha : a < 100) (hb : b < 100) (hc : c < 100) :
    matchIdPattern (fmt02 a ++ 95 :: fmt02 b ++ 95 :: fmt02 c ++ 95 :: rest) =
      (matchTail rest).map (fun g => ((a, b, c), g)) := by
  rw [fmt02_lt100 ha, fmt02_lt100 hb, fmt02_lt100 hc]
  show matchIdPattern ((48 + a / 10) :: (48 + a % 10) :: 95 :: (48 + b / 10) :: (48 + b % 10) ::
    95 :: (48 + c / 10) :: (48 + c % 10) :: 95 :: rest) = _
  unfold matchIdPattern
  have da1 : isDigitCode (48 + a / 10) = true := isDigitCode_48add (by omega)
  have da2 : isDigitCode (48 + a % 10) = true := isDigitCode_48add (by omega)
  have db1 : isDigitCode (48 + b / 10) = true := isDigitCode_48add (by omega)
  have db2 : isDigitCode (48 + b % 10) = true := isDigitCode_48add (by omega)
  have dc1 : isDigitCode (48 + c / 10) = true := isDigitCode_48add (by omega)
  have dc2 : isDigitCode (48 + c % 10) = true := isDigitCode_48add (by omega)
  have ra : (48 + a / 10 - 48) * 10 + (48 + a % 10 - 48) = a := by omega
  have rb : (48 + b / 10 - 48) * 10 + (48 + b % 10 - 48) = b := by omega
  have rc : (48 + c / 10 - 48) * 10 + (48 + c % 10 - 48) = c := by omega
  simp [da1, da2, db1, db2, dc1, dc2, ra, rb, rc]
  have ra2 : a / 10 * 10 + a % 10 = a := by omega
  have rb2 : b / 10 * 10 + b % 10 = b := by omega
  have rc2 : c / 10 * 10 + c % 10 = c := by omega
  simp only [ra2, rb2, rc2]

/-- C5 amended. Parsing inverts formatting only when every formatted group
is a single token: if the sanitized podcast name, the sanitized
interviewee name and the lowercased platform are nonempty and contain
neither an underscore nor a newline, the count is between 1 and 99, and
the date is a valid calendar date whose two-digit year re-expands to
itself under strptime (years 1969 to 2068), then from_string applied to
base_id returns exactly the original PodcastID; and every string the
positional pattern does not match is rejected with the invalid-format
error. Without the no-underscore condition the lazy groups split at the
first underscores and the round trip fails, as the counterexample on the
spec example shows. -/
theorem from_string_base_id_roundtrip (d : PyDate) (p iv pl : List Nat) (count : Nat)
    (hP1 : segOk (sanitize_name p) = true) (hP2 : 95 ∉ sanitize_name p)
    (hI1 : segOk (sanitize_name iv) = true) (hI2 : 95 ∉ sanitize_name iv)
    (hL1 : segOk (lowerStr pl) = true) (hL2 : 95 ∉ lowerStr pl)
    (hc1 : 1 ≤ count) (hc2 : count ≤ 99)
    (hdate : ValidDate d.year d.month d.day)
    (hyear : expandY2 (d.year % 100) = d.year) :
    PodcastID.from_string (PodcastID.make d p iv pl count).base_id =
      .ok (PodcastID.make d p iv pl count) ∧
    ∀ s, matchIdPattern s = none → PodcastID.from_string s = .error .formatError := by
  constructor
  · have hmonth : d.month < 100 := by
      rcases hdate with ⟨-, -, -, hm, -, -⟩
      omega
    have hday : d.day < 100 := by
      rcases hdate with ⟨-, -, -, -, -, hd2⟩
      have := daysInMonth_le31 d.year d.month
      omega
    have hshape : (PodcastID.make d p iv pl count).base_id =
        fmt02 (d.year % 100) ++ 95 :: fmt02 d.month ++ 95 :: fmt02 d.day ++ 95 ::
          (sanitize_name p ++ 95 :: (sanitize_name iv ++ 95 :: (lowerStr pl ++ 95 ::
            [48 + count / 10, 48 + count % 10]))) := by
      simp [PodcastID.base_id, PodcastID.make, strftime_y_m_d, List.append_assoc,
        fmt02_lt100 (show count < 100 by omega)]
    have hm : matchIdPattern ((PodcastID.make d p iv pl count).base_id) =
        some ((d.year % 100, d.month, d.day),
          sanitize_name p, sanitize_name iv, lowerStr pl, count) := by
      rw [hshape]
      rw [matchIdPattern_structured _ _ _ _ (Nat.mod_lt _ (by omega)) hmonth hday]
      rw [matchTail_structured _ _ _ _ _ hP1 hP2 hI1 hI2 hL1 hL2
        (isDigitCode_48add (by omega)) (isDigitCode_48add (by omega))]
      have hcnt : (48 + count / 10 - 48) * 10 + (48 + count % 10 - 48) = count := by omega
      simp [hcnt]
      omega
    unfold PodcastID.from_string
    rw [hm]
    simp only [hyear]
    rw [if_pos hdate]
    simp only [PodcastID.make, sanitize_name_idempotent, lowerStr_idem]
  · intro s hs
    unfold PodcastID.from_string
    rw [hs]

/-- Witness for C5: with single-token names the round trip holds at a
concrete input. -/
theorem from_string_base_id_roundtrip_witness :
    segOk (sanitize_name (codes "Danny")) = true ∧
    PodcastID.from_string
        (PodcastID.make ⟨2024, 9, 24⟩ (codes "Danny") (codes "Kruse") (codes "youtube") 7).base_id =
      .ok (PodcastID.make ⟨2024, 9, 24⟩ (codes "Danny") (codes "Kruse") (codes "youtube") 7) :=
  ⟨by decide,
    (from_string_base_id_roundtrip ⟨2024, 9, 24⟩ (codes "Danny") (codes "Kruse")
      (codes "youtube") 7 (by decide) (by decide) (by decide) (by decide) (by decide)
      (by decide) (by decide) (by decide) (by decide) (by decide)).1⟩

/-- C6. Loading the episode store: an absent database file yields the empty
store and no error; a present file that json.load rejects, for example a
truncated document, fails with the JSONDecodeError (the DataCorruption
case of the spec) instead of silently producing an empty store. -/
theorem load_file_spec :
    load_file none = .ok [] ∧
    ∀ s, pyJsonLoads s = none → load_file (some s) = .error .jsonDecodeError := by
  refine ⟨rfl, ?_⟩
  intro s hs
  simp only [load_file, hs]

/-- Witness for C6: a concrete truncated JSON document is rejected. -/
theorem load_file_spec_witness :
    pyJsonLoads (codes "[\x7b\"url\": ") = none ∧
    load_file (some (codes "[\x7b\"url\": ")) = .error .jsonDecodeError :=
  ⟨rfl, load_file_spec.2 _ rfl⟩

theorem serializeEntries_ne_nil (entries : List PodcastEntry) : serializeEntries entries ≠ [] := by
  cases entries with
  | nil => simp [serializeEntries, dumpVal]
  | cons e es => simp [serializeEntries, dumpVal]

/-- C1 amended. PodcastList._save is not atomic: it opens the target with
mode w, truncating it in place, and writes the new serialization
directly, with no write-to-temporary-and-rename step. A write failing
partway leaves a prefix of the new serialization; whenever the previous
contents were nonempty there is a crash point, right after the
truncating open, at which the file holds neither the previous contents
nor the completed new serialization, and does not parse as JSON at all. -/
theorem save_file_not_atomic (entries : List PodcastEntry) (prior : List Nat)
    (hprior : prior ≠ []) :
    ∃ k, save_file_interrupted entries k ≠ some prior ∧
      save_file_interrupted entries k ≠ save_file entries ∧
      pyJsonLoads ((serializeEntries entries).take k) = none := by
  refine ⟨0, ?_, ?_, rfl⟩
  · simp only [save_file_interrupted, List.take_zero]
    intro hcontra
    exact hprior (Option.some.inj hcontra).symm
  · simp only [save_file_interrupted, List.take_zero, save_file]
    intro hcontra
    exact serializeEntries_ne_nil entries (Option.some.inj hcontra).symm

/-- Witness for C1 amended, at a concrete store and prior file. -/
theorem save_file_not_atomic_witness :
    (codes "[]" ≠ ([] : List Nat)) ∧
    ∃ k, save_file_interrupted [entryA] k ≠ some (codes "[]") ∧
      save_file_interrupted [entryA] k ≠ save_file [entryA] ∧
      pyJsonLoads ((serializeEntries [entryA]).take k) = none :=
  ⟨by decide, save_file_not_atomic [entryA] (codes "[]") (by decide)⟩

/-- Counterexample for C1 as stated: the previous file holds the valid
empty JSON array, the new store has one entry, and the write dies right
after the truncating open: the on-disk file is empty, so it does not hold
the previous valid array, is not the new serialization, and is not valid
JSON. -/
theorem save_file_interrupted_counterexample :
    save_file_interrupted [entryA] 0 ≠ some (codes "[]") ∧
    save_file_interrupted [entryA] 0 ≠ save_file [entryA] ∧
    pyJsonLoads ((serializeEntries [entryA]).take 0) = none :=
  ⟨by decide, by decide, rfl⟩

/-- C2 amended. Only the older store rejects duplicates: in
src/podcasts/podcast_list.py, add_entry with a URL already present raises
the duplicate error before touching anything, leaving the in-memory entry
list and the store file unchanged for every store, database file and
metadata. The newer add_entry in src/podcasts/lib/models/podcast.py
performs no duplicate-URL check at all and appends a second entry with
the same URL, as the counterexample shows; its CLI caller prompts for
overwrite instead. -/
theorem OldList_add_entry_duplicate (entries : List OldList.PodcastEntry)
    (storeFile dbFile : Option (List Nat)) (url platform : List Nat)
    (metadata : OldList.Metadata) (e : OldList.PodcastEntry)
    (he : e ∈ entries) (heurl : e.url = url) :
    OldList.add_entry entries storeFile dbFile url platform metadata =
      (.error .duplicateURL, entries, storeFile) := by
  unfold OldList.add_entry
  rw [if_pos]
  exact List.any_eq_true.mpr ⟨e, he, by simp [heurl]⟩

/-- Witness for C2 amended at a concrete duplicate call. -/
theorem OldList_add_entry_duplicate_witness :
    oldEntryA ∈ [oldEntryA] ∧ oldEntryA.url = codes "https://yt/a" ∧
    OldList.add_entry [oldEntryA] none none (codes "https://yt/a") (codes "youtube")
        ⟨none, none, none, none, none, none⟩ =
      (.error .duplicateURL, [oldEntryA], none) :=
  ⟨List.mem_singleton.mpr rfl, rfl,
    OldList_add_entry_duplicate [oldEntryA] none none (codes "https://yt/a") (codes "youtube")
      ⟨none, none, none, none, none, none⟩ oldEntryA (List.mem_singleton.mpr rfl) rfl⟩

/-- Counterexample for C2 as stated: the newer add_entry, called on a store
already holding the URL, with valid metadata and no existing_id, does not
fail; it returns ok and the store now holds two entries with that URL. -/
theorem add_entry_no_duplicate_check :
    addResultUrls (add_entry [entryA] (some (serializeEntries [entryA])) (codes "https://yt/a")
        (codes "youtube") metaA none (codes "t1")) =
      some [codes "https://yt/a", codes "https://yt/a"] := by decide

theorem setattr_url_of_ne (e : PodcastEntry) (k' : List Nat) (v : PyVal)
    (h : k' ≠ codes "url") : (setattrEntry e k' v).url = e.url := by
  cases v with
  | vi i =>
    simp only [setattrEntry]
    split_ifs <;> rfl
  | vs s =>
    simp only [setattrEntry, apply_ite PodcastEntry.url]
    rw [if_neg h]
    simp only [ite_self]

theorem setattr_platform_of_ne (e : PodcastEntry) (k' : List Nat) (v : PyVal)
    (h : k' ≠ codes "platform") : (setattrEntry e k' v).platform = e.platform := by
  cases v with
  | vi i =>
    simp only [setattrEntry]
    split_ifs <;> rfl
  | vs s =>
    simp only [setattrEntry, apply_ite PodcastEntry.platform]
    rw [if_neg h]
    simp only [ite_self]

theorem setattr_title_of_ne (e : PodcastEntry) (k' : List Nat) (v : PyVal)
    (h : k' ≠ codes "title") : (setattrEntry e k' v).title = e.title := by
  cases v with
  | vi i =>
    simp only [setattrEntry]
    split_ifs <;> rfl
  | vs s =>
    simp only [setattrEntry, apply_ite PodcastEntry.title]
    rw [if_neg h]
    simp only [ite_self]

theorem setattr_podcast_name_of_ne (e : PodcastEntry) (k' : List Nat) (v : PyVal)
    (h : k' ≠ codes "podcast_name") : (setattrEntry e k' v).podcast_name = e.podcast_name := by
  cases v with
  | vi i =>
    simp only [setattrEntry]
    split_ifs <;> rfl
  | vs s =>
    simp only [setattrEntry, apply_ite PodcastEntry.podcast_name]
    rw [if_neg h]
    simp only [ite_self]

theorem setattr_episode_id_of_ne (e : PodcastEntry) (k' : List Nat) (v : PyVal)
    (h : k' ≠ codes "episode_id") : (setattrEntry e k' v).episode_id = e.episode_id := by
  cases v with
  | vi i =>
    simp only [setattrEntry]
    split_ifs <;> rfl
  | vs s =>
    simp only [setattrEntry, apply_ite PodcastEntry.episode_id]
    rw [if_neg h]
    simp only [ite_self]

theorem setattr_date_of_ne (e : PodcastEntry) (k' : List Nat) (v : PyVal)
    (h : k' ≠ codes "date") : (setattrEntry e k' v).date = e.date := by
  cases v with
  | vi i =>
    simp only [setattrEntry]
    split_ifs <;> rfl
  | vs s =>
    simp only [setattrEntry, apply_ite PodcastEntry.date]
    rw [if_neg h]
    simp only [ite_self]

theorem setattr_status_of_ne (e : PodcastEntry) (k' : List Nat) (v : PyVal)
    (h : k' ≠ codes "status") : (setattrEntry e k' v).status = e.status := by
  cases v with
  | vi i =>
    simp only [setattrEntry]
    split_ifs <;> rfl
  | vs s =>
    simp only [setattrEntry, apply_ite PodcastEntry.status]
    rw [if_neg h]
    simp only [ite_self]

theorem setattr_episodes_file_of_ne (e : PodcastEntry) (k' : List Nat) (v : PyVal)
    (h : k' ≠ codes "episodes_file") : (setattrEntry e k' v).episodes_file = e.episodes_file := by
  cases v with
  | vi i =>
    simp only [setattrEntry]
    split_ifs <;> rfl
  | vs s =>
    simp only [setattrEntry, apply_ite PodcastEntry.episodes_file]
    rw [if_neg h]
    simp only [ite_self]

theorem setattr_claims_file_of_ne (e : PodcastEntry) (k' : List Nat) (v : PyVal)
    (h : k' ≠ codes "claims_file") : (setattrEntry e k' v).claims_file = e.claims_file := by
  cases v with
  | vi i =>
    simp only [setattrEntry]
    split_ifs <;> rfl
  | vs s =>
    simp only [setattrEntry, apply_ite PodcastEntry.claims_file]
    rw [if_neg h]
    simp only [ite_self]

theorem setattr_transcripts_file_of_ne (e : PodcastEntry) (k' : List Nat) (v : PyVal)
    (h : k' ≠ codes "transcripts_file") : (setattrEntry e k' v).transcripts_file = e.transcripts_file := by
  cases v with
  | vi i =>
    simp only [setattrEntry]
    split_ifs <;> rfl
  | vs s =>
    simp only [setattrEntry, apply_ite PodcastEntry.transcripts_file]
    rw [if_neg h]
    simp only [ite_self]

theorem setattr_webvtt_link_of_ne (e : PodcastEntry) (k' : List Nat) (v : PyVal)
    (h : k' ≠ codes "webvtt_link") : (setattrEntry e k' v).webvtt_link = e.webvtt_link := by
  cases v with
  | vi i =>
    simp only [setattrEntry]
    split_ifs <;> rfl
  | vs s =>
    simp only [setattrEntry, apply_ite PodcastEntry.webvtt_link]
    rw [if_neg h]
    simp only [ite_self]

theorem setattr_process_command_of_ne (e : PodcastEntry) (k' : List Nat) (v : PyVal)
    (h : k' ≠ codes "process_command") : (setattrEntry e k' v).process_command = e.process_command := by
  cases v with
  | vi i =>
    simp only [setattrEntry]
    split_ifs <;> rfl
  | vs s =>
    simp only [setattrEntry, apply_ite PodcastEntry.process_command]
    rw [if_neg h]
    simp only [ite_self]

theorem setattr_added_at_of_ne (e : PodcastEntry) (k' : List Nat) (v : PyVal)
    (h : k' ≠ codes "added_at") : (setattrEntry e k' v).added_at = e.added_at := by
  cases v with
  | vi i =>
    simp only [setattrEntry]
    split_ifs <;> rfl
  | vs s =>
    simp only [setattrEntry, apply_ite PodcastEntry.added_at]
    rw [if_neg h]
    simp only [ite_self]

theorem setattr_updated_at_of_ne (e : PodcastEntry) (k' : List Nat) (v : PyVal)
    (h : k' ≠ codes "updated_at") : (setattrEntry e k' v).updated_at = e.updated_at := by
  cases v with
  | vi i =>
    simp only [setattrEntry]
    split_ifs <;> rfl
  | vs s =>
    simp only [setattrEntry, apply_ite PodcastEntry.updated_at]
    rw [if_neg h]
    simp only [ite_self]

theorem setattr_interviewee_of_ne (e : PodcastEntry) (k' : List Nat) (v : PyVal)
    (h : k' ≠ codes "interviewee") : (setattrEntry e k' v).interviewee = e.interviewee := by
  cases v with
  | vi i =>
    simp only [setattrEntry]
    rw [if_neg h]
  | vs s =>
    simp only [setattrEntry, apply_ite PodcastEntry.interviewee, ite_self]

theorem wellTyped_vi {k : List Nat} {i : Interviewee} (h : wellTypedKV k (.vi i) = true) :
    k = codes "interviewee" := by
  simpa [wellTypedKV] using h

theorem wellTyped_vs {k s : List Nat} (h : wellTypedKV k (.vs s) = true) :
    k ≠ codes "interviewee" := by
  simpa [wellTypedKV] using h

theorem getField_update_url (e : PodcastEntry) (s k : List Nat)
    (h : k ≠ codes "url") : getField { e with url := s } k = getField e k := by
  unfold getField
  simp only [if_neg h]

theorem getField_update_platform (e : PodcastEntry) (s k : List Nat)
    (h : k ≠ codes "platform") : getField { e with platform := s } k = getField e k := by
  unfold getField
  simp only [if_neg h]

theorem getField_update_title (e : PodcastEntry) (s k : List Nat)
    (h : k ≠ codes "title") : getField { e with title := s } k = getField e k := by
  unfold getField
  simp only [if_neg h]

theorem getField_update_podcast_name (e : PodcastEntry) (s k : List Nat)
    (h : k ≠ codes "podcast_name") : getField { e with podcast_name := s } k = getField e k := by
  unfold getField
  simp only [if_neg h]

theorem getField_update_episode_id (e : PodcastEntry) (s k : List Nat)
    (h : k ≠ codes "episode_id") : getField { e with episode_id := s } k = getField e k := by
  unfold getField
  simp only [if_neg h]

theorem getField_update_date (e : PodcastEntry) (s k : List Nat)
    (h : k ≠ codes "date") : getField { e with date := s } k = getField e k := by
  unfold getField
  simp only [if_neg h]

theorem getField_update_status (e : PodcastEntry) (s k : List Nat)
    (h : k ≠ codes "status") : getField { e with status := s } k = getField e k := by
  unfold getField
  simp only [if_neg h]

theorem getField_update_episodes_file (e : PodcastEntry) (s k : List Nat)
    (h : k ≠ codes "episodes_file") : getField { e with episodes_file := s } k = getField e k := by
  unfold getField
  simp only [if_neg h]

theorem getField_update_claims_file (e : PodcastEntry) (s k : List Nat)
    (h : k ≠ codes "claims_file") : getField { e with claims_file := s } k = getField e k := by
  unfold getField
  simp only [if_neg h]

theorem getField_update_transcripts_file (e : PodcastEntry) (s k : List Nat)
    (h : k ≠ codes "transcripts_file") : getField { e with transcripts_file := s } k = getField e k := by
  unfold getField
  simp only [if_neg h]

theorem getField_update_webvtt_link (e : PodcastEntry) (s k : List Nat)
    (h : k ≠ codes "webvtt_link") : getField { e with webvtt_link := s } k = getField e k := by
  unfold getField
  simp only [if_neg h]

theorem getField_update_process_command (e : PodcastEntry) (s k : List Nat)
    (h : k ≠ codes "process_command") : getField { e with process_command := s } k = getField e k := by
  unfold getField
  simp only [if_neg h]

theorem getField_update_added_at (e : PodcastEntry) (s k : List Nat)
    (h : k ≠ codes "added_at") : getField { e with added_at := s } k = getField e k := by
  unfold getField
  simp only [if_neg h]

theorem getField_update_updated_at (e : PodcastEntry) (s k : List Nat)
    (h : k ≠ codes "updated_at") : getField { e with updated_at := s } k = getField e k := by
  unfold getField
  simp only [if_neg h]

theorem getField_update_interviewee (e : PodcastEntry) (i : Interviewee)
    (k : List Nat) (h : k ≠ codes "interviewee") :
    getField { e with interviewee := i } k = getField e k := by
  unfold getField
  simp only [if_neg h]

theorem getField_setattrEntry_ne (e : PodcastEntry) (k' : List Nat) (v : PyVal)
    (k : List Nat) (h : k ≠ k') :
    getField (setattrEntry e k' v) k = getField e k := by
  cases v with
  | vi i =>
    simp only [setattrEntry]
    by_cases hk' : k' = codes "interviewee"
    · rw [if_pos hk']
      exact getField_update_interviewee e i k (hk' ▸ h)
    · rw [if_neg hk']
  | vs s =>
    simp only [setattrEntry]
    by_cases h1 : k' = codes "url"
    · rw [if_pos h1]
      exact getField_update_url e s k (h1 ▸ h)
    · rw [if_neg h1]
      by_cases h2 : k' = codes "platform"
      · rw [if_pos h2]
        exact getField_update_platform e s k (h2 ▸ h)
      · rw [if_neg h2]
        by_cases h3 : k' = codes "title"
        · rw [if_pos h3]
          exact getField_update_title e s k (h3 ▸ h)
        · rw [if_neg h3]
          by_cases h4 : k' = codes "podcast_name"
          · rw [if_pos h4]
            exact getField_update_podcast_name e s k (h4 ▸ h)
          · rw [if_neg h4]
            by_cases h5 : k' = codes "episode_id"
            · rw [if_pos h5]
              exact getField_update_episode_id e s k (h5 ▸ h)
            · rw [if_neg h5]
              by_cases h6 : k' = codes "date"
              · rw [if_pos h6]
                exact getField_update_date e s k (h6 ▸ h)
              · rw [if_neg h6]
                by_cases h7 : k' = codes "status"
                · rw [if_pos h7]
                  exact getField_update_status e s k (h7 ▸ h)
                · rw [if_neg h7]
                  by_cases h8 : k' = codes "episodes_file"
                  · rw [if_pos h8]
                    exact getField_update_episodes_file e s k (h8 ▸ h)
                  · rw [if_neg h8]
                    by_cases h9 : k' = codes "claims_file"
                    · rw [if_pos h9]
                      exact getField_update_claims_file e s k (h9 ▸ h)
                    · rw [if_neg h9]
                      by_cases h10 : k' = codes "transcripts_file"
                      · rw [if_pos h10]
                        exact getField_update_transcripts_file e s k (h10 ▸ h)
                      · rw [if_neg h10]
                        by_cases h11 : k' = codes "webvtt_link"
                        · rw [if_pos h11]
                          exact getField_update_webvtt_link e s k (h11 ▸ h)
                        · rw [if_neg h11]
                          by_cases h12 : k' = codes "process_command"
                          · rw [if_pos h12]
                            exact getField_update_process_command e s k (h12 ▸ h)
                          · rw [if_neg h12]
                            by_cases h13 : k' = codes "added_at"
                            · rw [if_pos h13]
                              exact getField_update_added_at e s k (h13 ▸ h)
                            · rw [if_neg h13]
                              by_cases h14 : k' = codes "updated_at"
                              · rw [if_pos h14]
                                exact getField_update_updated_at e s k (h14 ▸ h)
                              · rw [if_neg h14]

theorem getField_setattrEntry_same (e : PodcastEntry) (k : List Nat) (v : PyVal)
    (hk : k ∈ entryFieldNames) (hv : wellTypedKV k v = true) :
    getField (setattrEntry e k v) k = some v := by
  simp only [entryFieldNames, List.mem_cons, List.not_mem_nil, or_false] at hk
  rcases hk with rfl | rfl | rfl | rfl | rfl | rfl | rfl | rfl | rfl | rfl | rfl | rfl |
    rfl | rfl | rfl <;>
    cases v <;>
    first
      | rfl
      | exact absurd (wellTyped_vi hv) (by decide)
      | exact absurd rfl (wellTyped_vs hv)

theorem getField_applyKwargs_not_named (e : PodcastEntry) (kwargs : List (List Nat × PyVal))
    (k : List Nat) (h : ∀ v, (k, v) ∉ kwargs) :
    getField (applyKwargs e kwargs) k = getField e k := by
  induction kwargs generalizing e with
  | nil => rfl
  | cons kv rest ih =>
    have hk : k ≠ kv.1 := by
      intro hc
      apply h kv.2
      rw [hc]
      exact List.mem_cons_self _ _
    have hrest : ∀ v, (k, v) ∉ rest := fun v hv => h v (List.mem_cons_of_mem _ hv)
    show getField (applyKwargs (applyKwarg e kv) rest) k = getField e k
    rw [ih (applyKwarg e kv) hrest]
    unfold applyKwarg
    split
    · exact getField_setattrEntry_ne e kv.1 kv.2 k hk
    · rfl

theorem contains_of_mem {l : List (List Nat)} {a : List Nat} (h : a ∈ l) :
    l.contains a = true := by
  induction l with
  | nil => cases h
  | cons b t ih =>
    rcases List.mem_cons.mp h with rfl | h2
    · simp [List.contains_cons]
    · rw [List.contains_cons, ih h2, Bool.or_true]

theorem getField_applyKwargs_named (e : PodcastEntry) (l r : List (List Nat × PyVal))
    (k : List Nat) (v : PyVal) (hk : k ∈ entryFieldNames) (hv : wellTypedKV k v = true)
    (hr : ∀ w, (k, w) ∉ r) :
    getField (applyKwargs e (l ++ (k, v) :: r)) k = some v := by
  have hsplit : applyKwargs e (l ++ (k, v) :: r) =
      applyKwargs (applyKwarg (applyKwargs e l) (k, v)) r := by
    simp [applyKwargs, List.foldl_append]
  rw [hsplit, getField_applyKwargs_not_named _ r k hr]
  unfold applyKwarg
  rw [if_pos]
  · exact getField_setattrEntry_same _ k v hk hv
  · exact contains_of_mem (by
      unfold entryAttrNames
      exact List.mem_append_left _ hk)

theorem updateFirst_append {α : Type} (sat : α → Bool) (f : α → α) (l1 l2 : List α) (e : α)
    (hl1 : ∀ x ∈ l1, sat x = false) (he : sat e = true) :
    updateFirst sat f (l1 ++ e :: l2) = (some (f e), l1 ++ f e :: l2) := by
  induction l1 with
  | nil => simp [updateFirst, he]
  | cons a t ih =>
    have ha : sat a = false := hl1 a (List.mem_cons_self _ _)
    have ht : ∀ x ∈ t, sat x = false := fun x hx => hl1 x (List.mem_cons_of_mem _ hx)
    simp [updateFirst, ha, ih ht]

/-- C7. For a store containing the target episode (written as a prefix of
non-matching entries, the first matching entry, and a suffix),
update_entry succeeds and changes nothing but that entry, which receives
exactly the well-typed fields named in the call plus a refreshed
updated_at: the prefix and suffix come back untouched and the full store
is persisted; the updated_at field reads back as the clock value; every
field neither named in the call nor equal to updated_at reads back
unchanged; the last value supplied for a named settable field reads back
as supplied; and keyword names that are not attributes of the entry cause
no failure and, being no field, change no field. -/
theorem update_entry_frame (l1 l2 : List PodcastEntry) (e : PodcastEntry)
    (episode_id now : List Nat) (kwargs : List (List Nat × PyVal))
    (hl1 : ∀ x ∈ l1, x.episode_id ≠ episode_id) (he : e.episode_id = episode_id) :
    update_entry (l1 ++ e :: l2) episode_id kwargs now =
      .ok (l1 ++ { applyKwargs e kwargs with updated_at := now } :: l2,
        save_file (l1 ++ { applyKwargs e kwargs with updated_at := now } :: l2)) ∧
    ({ applyKwargs e kwargs with updated_at := now } : PodcastEntry).updated_at = now ∧
    (∀ k, k ≠ codes "updated_at" → (∀ v, (k, v) ∉ kwargs) →
      getField { applyKwargs e kwargs with updated_at := now } k = getField e k) ∧
    (∀ l r k v, kwargs = l ++ (k, v) :: r → (∀ w, (k, w) ∉ r) → k ∈ entryFieldNames →
      k ≠ codes "updated_at" → wellTypedKV k v = true →
      getField { applyKwargs e kwargs with updated_at := now } k = some v) := by
  refine ⟨?_, rfl, ?_, ?_⟩
  · unfold update_entry
    rw [updateFirst_append (fun x => x.episode_id == episode_id)
      (fun x => { applyKwargs x kwargs with updated_at := now }) l1 l2 e
      (fun x hx => by simp [hl1 x hx]) (by simp [he])]
  · intro k hk hnotin
    rw [getField_update_updated_at _ _ _ hk]
    exact getField_applyKwargs_not_named e kwargs k hnotin
  · intro l r k v hkw hr hkf hkne hwt
    subst hkw
    rw [getField_update_updated_at _ _ _ hkne]
    exact getField_applyKwargs_named e l r k v hkf hwt hr

/-- Witness for C7: updating status (plus a bogus keyword, ignored) on a
singleton store. -/
theorem update_entry_frame_witness :
    update_entry [entryA] (codes "24_09_24_pod_neil_youtube_01")
        [(codes "status", PyVal.vs (codes "error")), (codes "bogus", PyVal.vs (codes "x"))]
        (codes "t9") =
      .ok ([{ applyKwargs entryA [(codes "status", PyVal.vs (codes "error")),
          (codes "bogus", PyVal.vs (codes "x"))] with updated_at := codes "t9" }],
        save_file [{ applyKwargs entryA [(codes "status", PyVal.vs (codes "error")),
          (codes "bogus", PyVal.vs (codes "x"))] with updated_at := codes "t9" }]) :=
  (update_entry_frame [] [] entryA (codes "24_09_24_pod_neil_youtube_01") (codes "t9")
    [(codes "status", PyVal.vs (codes "error")), (codes "bogus", PyVal.vs (codes "x"))]
    (by simp) rfl).1

/-- Counterexample for C5 as stated: parsing the formatted identifier of the
spec example succeeds but does not return the original components, because
the lazy groups split at the first underscores: the podcast-name group
comes back as danny instead of danny_jones. -/
theorem from_string_not_left_inverse :
    (PodcastID.make ⟨2024, 9, 24⟩ (codes "Danny Jones") (codes "Jack Kruse")
        (codes "youtube") 1).base_id =
      codes "24_09_24_danny_jones_jack_kruse_youtube_01" ∧
    PodcastID.from_string (codes "24_09_24_danny_jones_jack_kruse_youtube_01") =
      .ok (PodcastID.mk ⟨2024, 9, 24⟩ (codes "danny") (codes "jones")
        (codes "jack_kruse_youtube") 1) ∧
    PodcastID.mk ⟨2024, 9, 24⟩ (codes "danny") (codes "jones")
        (codes "jack_kruse_youtube") 1 ≠
      PodcastID.make ⟨2024, 9, 24⟩ (codes "Danny Jones") (codes "Jack Kruse")
        (codes "youtube") 1 :=
  ⟨by decide, by decide, by decide⟩

/-- Witness for C3: a fresh generator (empty cache) run twice on the
spec scenario yields the two expected concrete identifiers ending in the
zero-padded counters 01 and 02. -/
theorem generate_id_gapless_counters_witness :
    cacheGet (IDGenerator.mk []).id_cache (codes "Danny Jones" ++ 95 :: codes "Jack Kruse") = 0 ∧
    (genCalls ⟨[]⟩ (codes "Danny Jones") (codes "Jack Kruse")
        (fun _ => (⟨2024, 9, 24⟩, codes "youtube")) 0).1.base_id =
      codes "24_09_24_danny_jones_jack_kruse_youtube_01" ∧
    (genCalls ⟨[]⟩ (codes "Danny Jones") (codes "Jack Kruse")
        (fun _ => (⟨2024, 9, 24⟩, codes "youtube")) 1).1.base_id =
      codes "24_09_24_danny_jones_jack_kruse_youtube_02" := by
  refine ⟨by decide, ?_, ?_⟩
  · rw [(generate_id_gapless_counters ⟨[]⟩ (codes "Danny Jones") (codes "Jack Kruse")
      (fun _ => (⟨2024, 9, 24⟩, codes "youtube")) (by decide) 0).1]
    decide
  · rw [(generate_id_gapless_counters ⟨[]⟩ (codes "Danny Jones") (codes "Jack Kruse")
      (fun _ => (⟨2024, 9, 24⟩, codes "youtube")) (by decide) 1).1]
    decide

theorem dictGet?_mem {d : List (List Nat × JsonVal)} {k : List Nat} {v : JsonVal}
    (h : dictGet? d k = some v) : (k, v) ∈ d := by
  induction d with
  | nil => simp [dictGet?, List.find?] at h
  | cons p rest ih =>
    cases hc : (p.1 == k) with
    | true =>
      have hred : dictGet? (p :: rest) k = some p.2 := by
        simp [dictGet?, List.find?, hc]
      rw [hred] at h
      have hpv : (k, v) = p := by
        cases p with
        | mk a b =>
          injection h with h2
          have hb : b = v := h2
          have ha : a = k := by simpa using hc
          rw [ha, hb]
      rw [hpv]
      exact List.mem_cons_self _ _
    | false =>
      have hred : dictGet? (p :: rest) k = dictGet? rest k := by
        simp [dictGet?, List.find?, hc]
      rw [hred] at h
      exact List.mem_cons_of_mem _ (ih h)

theorem mem_of_mem_dictSet {d : List (List Nat × JsonVal)} {k : List Nat} {v : JsonVal}
    {p : List Nat × JsonVal} (h : p ∈ dictSet d k v) : p = (k, v) ∨ p ∈ d := by
  induction d with
  | nil => simpa [dictSet] using h
  | cons q rest ih =>
    by_cases hq : q.1 == k
    · simp only [dictSet, hq, if_true] at h
      rcases List.mem_cons.mp h with h1 | h2
      · exact Or.inl h1
      · exact Or.inr (List.mem_cons_of_mem _ h2)
    · simp only [dictSet, hq, Bool.false_eq_true, if_false] at h
      rcases List.mem_cons.mp h with h1 | h2
      · exact Or.inr (h1 ▸ List.mem_cons_self _ _)
      · rcases ih h2 with h3 | h4
        · exact Or.inl h3
        · exact Or.inr (List.mem_cons_of_mem _ h4)

theorem mem_mkDict {kvs : List (List Nat × JsonVal)} {p : List Nat × JsonVal}
    (h : p ∈ mkDict kvs) : p ∈ kvs := by
  suffices hgen : ∀ (d : List (List Nat × JsonVal)),
      p ∈ kvs.foldl (fun d kv => dictSet d kv.1 kv.2) d → p ∈ d ∨ p ∈ kvs by
    rcases hgen [] h with h1 | h2
    · cases h1
    · exact h2
  clear h
  induction kvs with
  | nil => intro d h; exact Or.inl h
  | cons kv rest ih =>
    intro d h
    rcases ih (dictSet d kv.1 kv.2) h with h1 | h2
    · rcases mem_of_mem_dictSet h1 with h3 | h4
      · exact Or.inr (h3 ▸ List.mem_cons_self _ _)
      · exact Or.inl h4
    · exact Or.inr (List.mem_cons_of_mem _ h2)

/-- C8 amended. The save_state taking episode_id, status and extra keyword
arguments, shared by src/podcasts/lib/models/podcast.py and
src/podcasts/podcast_list.py, fully replaces the current-state file: the
result does not depend on the prior contents, the file afterwards is
exactly the dump of the dict holding episode_id, status and the extras,
and every key readable from that dict is one of episode_id, status or a
supplied extra, so no key from the prior state survives. The
platform-scoped save_state of src/podcasts/main.py instead merges into
the existing file, so prior keys do survive there, as the counterexample
shows. -/
theorem save_state_full_replace (episode_id status : List Nat)
    (extra : List (List Nat × JsonVal)) (prior prior2 : Option (List Nat)) :
    save_state episode_id status extra prior = save_state episode_id status extra prior2 ∧
    save_state episode_id status extra prior =
      some (dumpVal 0 (.jobj (save_state_dict episode_id status extra))) ∧
    ∀ k v, dictGet? (save_state_dict episode_id status extra) k = some v →
      k = codes "episode_id" ∨ k = codes "status" ∨ (k, v) ∈ extra := by
  refine ⟨rfl, rfl, ?_⟩
  intro k v h
  have hm := mem_mkDict (dictGet?_mem h)
  rcases List.mem_cons.mp hm with heq | hm2
  · exact Or.inl (congrArg Prod.fst heq)
  rcases List.mem_cons.mp hm2 with heq | hm3
  · exact Or.inr (Or.inl (congrArg Prod.fst heq))
  · exact Or.inr (Or.inr hm3)

/-- Witness for C8 amended at a concrete call carrying one extra key. -/
theorem save_state_full_replace_witness :
    dictGet? (save_state_dict (codes "ep1") (codes "processing")
        [(codes "error", JsonVal.jstr (codes "boom"))]) (codes "error") =
      some (JsonVal.jstr (codes "boom")) ∧
    (codes "error" = codes "episode_id" ∨ codes "error" = codes "status" ∨
      (codes "error", JsonVal.jstr (codes "boom")) ∈
        [(codes "error", JsonVal.jstr (codes "boom"))]) :=
  ⟨rfl, (save_state_full_replace (codes "ep1") (codes "processing")
    [(codes "error", JsonVal.jstr (codes "boom"))] none (some [])).2.2 _ _ rfl⟩

/-- Counterexample for C8 as stated: the platform-scoped save_state of
src/podcasts/main.py merges with the prior state. Starting from a YouTube
state file holding only a transcript_file key and calling it with just an
episode ID, the resulting file still carries the old transcript_file key
alongside the new episode_id, so the file does not contain exactly the
supplied pairs. -/
theorem main_save_state_merges :
    MainPy.save_state (some (codes "youtube")) (some (codes "ep1")) none none
        ⟨some (dumpVal 0 (.jobj [(codes "transcript_file", .jstr (codes "t.vtt"))])), none⟩ =
      .ok ⟨some (dumpVal 0 (.jobj [(codes "transcript_file", .jstr (codes "t.vtt")),
        (codes "episode_id", .jstr (codes "ep1"))])), none⟩ ∧
    pyJsonLoads (dumpVal 0 (.jobj [(codes "transcript_file", .jstr (codes "t.vtt")),
        (codes "episode_id", .jstr (codes "ep1"))])) =
      some (.jobj [(codes "transcript_file", .jstr (codes "t.vtt")),
        (codes "episode_id", .jstr (codes "ep1"))]) :=
  ⟨rfl, rfl⟩

/-- C9. Every successful call of the newer add_entry without existing_id
returns an entry whose status is pending and whose episodes_file,
claims_file and transcripts_file are empty, appends exactly that entry to
the in-memory list, and persists the full enlarged store (the store file
handed back is the serialization of the new list) before returning. -/
theorem add_entry_success_spec (entries : List PodcastEntry) (storeFile : Option (List Nat))
    (url platform : List Nat) (metadata : Metadata) (now : List Nat)
    (es2 : List PodcastEntry) (f2 : Option (List Nat)) (e : PodcastEntry)
    (h : add_entry entries storeFile url platform metadata none now = .ok (es2, f2, e)) :
    e.status = codes "pending" ∧ e.episodes_file = [] ∧ e.claims_file = [] ∧
    e.transcripts_file = [] ∧ es2 = entries ++ [e] ∧ f2 = save_file es2 := by
  cases hpa : metadata.published_at with
  | none =>
    simp only [add_entry, hpa] at h
    exact Except.noConfusion h
  | some pa =>
    cases hpd : parseIsoDate (replaceZ pa) with
    | none =>
      simp only [add_entry, hpa, hpd] at h
      exact Except.noConfusion h
    | some date =>
      cases hcache : loadCacheFromFile storeFile with
      | error ce =>
        simp only [add_entry, hpa, hpd, hcache, Except.map] at h
        exact Except.noConfusion h
      | ok cache =>
        simp only [add_entry, hpa, hpd, hcache, Except.map, Except.ok.injEq,
          Prod.mk.injEq] at h
        obtain ⟨hes, hf, he⟩ := h
        subst he
        subst hes
        subst hf
        refine ⟨rfl, rfl, rfl, rfl, rfl, rfl⟩

/-- Witness for C9: a minimal concrete successful call. -/
theorem add_entry_success_spec_witness :
    add_entry [] none (codes "u1") (codes "youtube")
        ⟨some (codes "2024-09-24"), none, none, none, none⟩ none (codes "t0") =
      .ok ([wEntry], save_file [wEntry], wEntry) ∧
    (wEntry.status = codes "pending" ∧ wEntry.episodes_file = [] ∧ wEntry.claims_file = [] ∧
      wEntry.transcripts_file = [] ∧ [wEntry] = [] ++ [wEntry] ∧
      save_file [wEntry] = save_file [wEntry]) :=
  ⟨by decide,
    add_entry_success_spec [] none (codes "u1") (codes "youtube")
      ⟨some (codes "2024-09-24"), none, none, none, none⟩ (codes "t0")
      [wEntry] (save_file [wEntry]) wEntry (by decide)⟩

theorem updateFirst_some {α : Type} (sat : α → Bool) (f : α → α) (l : List α) (x : α)
    (l' : List α) (h : updateFirst sat f l = (some x, l')) :
    ∃ e, sat e = true ∧ x = f e := by
  induction l generalizing l' with
  | nil => simp [updateFirst] at h
  | cons a t ih =>
    by_cases ha : sat a
    · refine ⟨a, ha, ?_⟩
      simp only [updateFirst, ha, if_true] at h
      injection h with h1 h2
      exact (Option.some.inj h1).symm
    · have hstep : updateFirst sat f (a :: t) =
          ((updateFirst sat f t).1, a :: (updateFirst sat f t).2) := by
        simp [updateFirst, ha]
      rw [hstep] at h
      injection h with h1 h2
      have hpair : updateFirst sat f t = (some x, (updateFirst sat f t).2) := by
        rw [← h1]
      exact ih _ hpair

theorem isEmpty_false_of_ne_nil {l : List Nat} (h : l ≠ []) : l.isEmpty = false := by
  cases l with
  | nil => exact absurd rfl h
  | cons a t => rfl

/-- C10. The older update_entry silently promotes the status: whenever the
call finds its entry and the field updates leave all three generated-file
fields nonempty, the entry it stores and returns carries status complete,
regardless of and overriding any status value supplied among the keyword
arguments. -/
theorem OldList_update_entry_promotes (entries : List OldList.PodcastEntry)
    (storeFile : Option (List Nat)) (episode_id : List Nat)
    (kwargs : List (List Nat × PyVal)) (e2 : OldList.PodcastEntry)
    (es2 : List OldList.PodcastEntry) (f2 : Option (List Nat))
    (h : OldList.update_entry entries storeFile episode_id kwargs = (some e2, es2, f2))
    (hfiles : e2.episodes_file ≠ [] ∧ e2.claims_file ≠ [] ∧ e2.transcripts_file ≠ []) :
    e2.status = codes "complete" := by
  unfold OldList.update_entry at h
  cases hu : updateFirst (fun e => e.episode_id == episode_id)
      (fun e =>
        let e3 := OldList.applyKwargsOld e kwargs
        if e3.is_complete then { e3 with status := codes "complete" } else e3) entries with
  | mk o es' =>
    rw [hu] at h
    cases o with
    | none => simp at h
    | some x =>
      have hx : x = e2 := by
        injection h with h1 hrest
        exact Option.some.inj h1
      obtain ⟨e0, -, hxe⟩ := updateFirst_some _ _ _ _ _ hu
      rw [hx] at hxe
      by_cases hic : (OldList.applyKwargsOld e0 kwargs).is_complete
      · rw [hxe]
        simp only [hic, if_true]
      · exfalso
        have he2 : e2 = OldList.applyKwargsOld e0 kwargs := by
          rw [hxe]
          simp only [if_neg hic]
        apply hic
        rw [← he2]
        unfold OldList.PodcastEntry.is_complete
        rw [isEmpty_false_of_ne_nil hfiles.1, isEmpty_false_of_ne_nil hfiles.2.1,
          isEmpty_false_of_ne_nil hfiles.2.2]
        rfl

/-- Witness for C10: recording the final transcript file while explicitly
asking for status pending still stores status complete. -/
theorem OldList_update_entry_promotes_witness :
    OldList.update_entry [oldEntryB] none (codes "24_09_24_pod_neil_youtube_02")
        [(codes "transcripts_file", PyVal.vs (codes "t.vtt")),
          (codes "status", PyVal.vs (codes "pending"))] =
      (some oldEntryBDone, [oldEntryBDone], some (OldList.serializeEntries [oldEntryBDone])) ∧
    (oldEntryBDone.episodes_file ≠ [] ∧ oldEntryBDone.claims_file ≠ [] ∧
      oldEntryBDone.transcripts_file ≠ []) ∧
    oldEntryBDone.status = codes "complete" :=
  ⟨by decide, by decide,
    OldList_update_entry_promotes [oldEntryB] none (codes "24_09_24_pod_neil_youtube_02")
      [(codes "transcripts_file", PyVal.vs (codes "t.vtt")),
        (codes "status", PyVal.vs (codes "pending"))]
      oldEntryBDone [oldEntryBDone] (some (OldList.serializeEntries [oldEntryBDone]))
      (by decide) (by decide)⟩

end Podcasts

